import Mathlib

/-!
  Verification development for the COMP0023 routing simulator.

  The definitions below are a shallow embedding of the Python sources under
  `simulator/lib` (`router.py`, `link.py`, `egp.py`, `ext.py`, `checkers.py`,
  `packet.py`).  Python dictionaries are embedded as association lists with
  insertion-order semantics (updating an existing key keeps its position,
  new keys are appended), Python sets of strings as duplicate-free lists in
  first-insertion order, Python exceptions as `Except String`, and Python
  strings as Lean `String`s.  Machine-level concerns (arbitrary-precision
  ints) need no care: all arithmetic in the sources is small-integer and
  Python ints are unbounded, as are `Nat`/`Int`.
-/

namespace RoutingSim

/-! ## Python dict / set embedding -/

section Dict

variable {κ : Type} {α : Type} [DecidableEq κ]

/-- `m[k]` read that returns `none` when the key is absent
(Python `k in m` + `m[k]`, or `m.get(k)`). -/
def dlookup (m : List (κ × α)) (k : κ) : Option α :=
  (m.find? (fun p => p.1 = k)).map Prod.snd

/-- `m[k] = v` on a Python dict: an existing key keeps its position and gets
the new value, a new key is appended (insertion order). -/
def dinsert (m : List (κ × α)) (k : κ) (v : α) : List (κ × α) :=
  if (m.find? (fun p => p.1 = k)).isSome then
    m.map (fun p => if p.1 = k then (k, v) else p)
  else
    m ++ [(k, v)]

/-- `del m[k]` / `m.pop(k, None)`: removal of the binding for `k`. -/
def derase (m : List (κ × α)) (k : κ) : List (κ × α) :=
  m.filter (fun p => p.1 ≠ k)

/-- `s.add(x)` on a Python set, embedded as a duplicate-free list in
first-insertion order. -/
def sadd (s : List κ) (k : κ) : List κ :=
  if k ∈ s then s else s ++ [k]

end Dict

/-! ## Python string helpers -/

/-- Python `str.split()` with no argument: split on runs of whitespace,
dropping empty tokens.  The simulator only ever puts plain spaces in the
strings it splits, so a space is the only separator handled. -/
def splitWs (s : String) : List String :=
  go s.data []
where
  go : List Char → List Char → List String
    | [], cur => if cur.isEmpty then [] else [String.mk cur.reverse]
    | c :: cs, cur =>
      if c = ' ' then
        if cur.isEmpty then go cs [] else String.mk cur.reverse :: go cs []
      else go cs (c :: cur)

/-- Lexicographic comparison of character lists by code point, the order
Python uses on `str`.  (Implemented structurally so that concrete
instances evaluate inside the kernel.) -/
def charListLe : List Char → List Char → Bool
  | [], _ => true
  | _ :: _, [] => false
  | a :: as, b :: bs =>
    if a.toNat < b.toNat then true
    else if b.toNat < a.toNat then false
    else charListLe as bs

/-- `a <= b` on Python strings. -/
def strLe (a b : String) : Bool := charListLe a.data b.data

/-- `s.startswith(pre)`. -/
def pyStartsWith (s pre : String) : Bool := pre.data.isPrefixOf s.data

/-- `s.strip()`: remove leading and trailing spaces (the only whitespace
the simulator's strings contain). -/
def pyStrip (s : String) : String :=
  String.mk (((s.data.dropWhile (· = ' ')).reverse.dropWhile
    (· = ' ')).reverse)

/-- The scan of Python `s.split(sep)` for a non-empty separator
`s0 :: srest`: cut at each non-overlapping occurrence, scanning left to
right.  The extra `Nat` argument is structural-recursion fuel; one unit
per character suffices, and the caller supplies the input length. -/
def splitOnCore (s0 : Char) (srest : List Char) : Nat → List Char →
    List (List Char)
  | _, [] => [[]]
  | 0, cs => [cs]
  | fuel + 1, c :: rest =>
    if (s0 :: srest).isPrefixOf (c :: rest) then
      [] :: splitOnCore s0 srest fuel (rest.drop srest.length)
    else
      match splitOnCore s0 srest fuel rest with
      | [] => [[c]]
      | seg :: segs => (c :: seg) :: segs

/-- Python `s.split(sep)` with a non-empty separator.  (Python raises on
an empty separator; the simulator never passes one, and the embedding
returns `[s]` in that unreachable case.) -/
def pySplitOn (s sep : String) : List String :=
  match sep.data with
  | [] => [s]
  | s0 :: srest => (splitOnCore s0 srest s.data.length s.data).map String.mk

/-- `int(s)` for a string of decimal digits. -/
def digitsToNat (cs : List Char) : Nat :=
  cs.foldl (fun a c => a * 10 + (c.toNat - 48)) 0

/-- Stable insertion into a `le`-ascending list (inserted before the first
element it is `le`-related to, so earlier list elements stay first among
equals, as with Python's stable `sorted`). -/
def insSorted (le : α → α → Bool) (x : α) : List α → List α
  | [] => [x]
  | y :: ys => if le x y then x :: y :: ys else y :: insSorted le x ys

/-- Stable insertion sort, ascending in `le`: the embedding of Python
`sorted(...)`. -/
def sortByB (le : α → α → Bool) (l : List α) : List α :=
  l.foldr (insSorted le) []

/-- Python `sorted` on a list of strings (lexicographic by code point). -/
def sortStr (l : List String) : List String :=
  sortByB strLe l

/-! ## CIDR networks (`ipaddress.ip_network` / `ip_address`, IPv4)

The simulator's prefixes are IPv4 CIDR strings.  `ip_network` parses and
validates them (raising on malformed input or set host bits) and compares
the resulting objects by value; the embedding parses to a canonical
`Cidr` value, with `none` playing the role of the `ValueError`. -/

structure Cidr where
  addr : Nat
  plen : Nat
  deriving DecidableEq, Repr

/-- Parse one decimal IPv4 octet: non-empty, digits only, no leading zero
(as in Python ≥ 3.9 `ipaddress`), value ≤ 255. -/
def parseOctet (s : String) : Option Nat :=
  if s.data.isEmpty then none
  else if ¬ s.data.all Char.isDigit then none
  else if s.data.length > 1 ∧ s.data.headD '0' = '0' then none
  else
    let v := digitsToNat s.data
    if v ≤ 255 then some v else none

/-- Parse a dotted-quad IPv4 address to its 32-bit value
(`ipaddress.ip_address`). -/
def parseIp (s : String) : Option Nat := do
  match pySplitOn s "." with
  | [a, b, c, d] => do
    let a ← parseOctet a
    let b ← parseOctet b
    let c ← parseOctet c
    let d ← parseOctet d
    pure (((a * 256 + b) * 256 + c) * 256 + d)
  | _ => none

/-- Parse a CIDR string (`ipaddress.ip_network`, strict): optional
`/len` (default 32), and the host bits must be zero. -/
def parseCidr (s : String) : Option Cidr := do
  match pySplitOn s "/" with
  | [a] => do
    let ip ← parseIp a
    pure ⟨ip, 32⟩
  | [a, l] => do
    let ip ← parseIp a
    if l.data.isEmpty ∨ ¬ l.data.all Char.isDigit then none
    else
      let len := digitsToNat l.data
      if len ≤ 32 ∧ ip % 2 ^ (32 - len) = 0 then pure ⟨ip, len⟩ else none
  | _ => none

/-- `dest_ip in k` on an `ip_network` `k` whose host bits are zero. -/
def Cidr.containsIp (c : Cidr) (ip : Nat) : Bool :=
  ip / 2 ^ (32 - c.plen) = c.addr / 2 ^ (32 - c.plen)

/-- `a.subnet_of(b)`. -/
def Cidr.subnetOf (a b : Cidr) : Bool :=
  b.plen ≤ a.plen && (a.addr / 2 ^ (32 - b.plen) = b.addr / 2 ^ (32 - b.plen))

/-! ## `ForwardingTable` (`router.py`) -/

/-- The `LOOPBACK` sentinel interface name (`ForwardingTable.LOOPBACK`). -/
def LOOPBACK : String := "local"

/-- `ForwardingTable`: CIDR-keyed dict of egress interface lists plus the
write counter.  `setEntry` parses its destination with `ip_network`; here
parsing is split out so the table itself is keyed by the parsed value. -/
structure ForwardingTable where
  table : List (Cidr × List String)
  numWrites : Nat
  deriving DecidableEq, Repr

def ForwardingTable.empty : ForwardingTable := ⟨[], 0⟩

/-- `setEntry` on an already-parsed network: store the list and count the
write. -/
def ForwardingTable.setEntry (ft : ForwardingTable) (dest : Cidr)
    (outifaces : List String) : ForwardingTable :=
  ⟨dinsert ft.table dest outifaces, ft.numWrites + 1⟩

/-- `setEntry(destination, outifaces)` with the `ip_network` parse; a parse
failure is the propagated `ValueError`. -/
def ForwardingTable.setEntryS (ft : ForwardingTable) (destination : String)
    (outifaces : List String) : Except String ForwardingTable :=
  match parseCidr destination with
  | some c => .ok (ft.setEntry c outifaces)
  | none => .error ("cannot parse network " ++ destination)

/-- `setEntryLocal(destination)`. -/
def ForwardingTable.setEntryLocalS (ft : ForwardingTable)
    (destination : String) : Except String ForwardingTable :=
  ft.setEntryS destination [LOOPBACK]

/-- `removeEntry` on an already-parsed network: `pop` without touching the
write counter. -/
def ForwardingTable.removeEntry (ft : ForwardingTable) (dest : Cidr) :
    ForwardingTable :=
  ⟨derase ft.table dest, ft.numWrites⟩

/-- `removeEntry(destination)` with the `ip_network` parse. -/
def ForwardingTable.removeEntryS (ft : ForwardingTable)
    (destination : String) : Except String ForwardingTable :=
  match parseCidr destination with
  | some c => .ok (ft.removeEntry c)
  | none => .error ("cannot parse network " ++ destination)

/-- `getEntry(destination)`: exact-key lookup, `sorted`, `[]` when absent. -/
def ForwardingTable.getEntry (ft : ForwardingTable) (dest : Cidr) :
    List String :=
  match dlookup ft.table dest with
  | some l => sortStr l
  | none => []

/-- `getTotalWrites()`. -/
def ForwardingTable.getTotalWrites (ft : ForwardingTable) : Nat :=
  ft.numWrites

/-- The `for k in self._table` loop of `getNextHops`: keep the last match
that refines the current one. -/
def nextHopScan (ip : Nat) : List (Cidr × List String) → Option Cidr →
    Option Cidr
  | [], curr => curr
  | (k, _) :: rest, curr =>
    if ¬ k.containsIp ip then nextHopScan ip rest curr
    else
      match curr with
      | none => nextHopScan ip rest (some k)
      | some c => if k.subnetOf c then nextHopScan ip rest (some k)
                  else nextHopScan ip rest (some c)

/-- `getNextHops(destination)` on an already-parsed address: longest-prefix
match, result `sorted`, `[]` when nothing matches. -/
def ForwardingTable.getNextHops (ft : ForwardingTable) (ip : Nat) :
    List String :=
  match nextHopScan ip ft.table none with
  | some c => sortStr ((dlookup ft.table c).getD [])
  | none => []

/-- `getNextHops` with the `ip_address` parse of the destination string. -/
def ForwardingTable.getNextHopsS (ft : ForwardingTable) (destination : String) :
    Except String (List String) :=
  match parseIp destination with
  | some ip => .ok (ft.getNextHops ip)
  | none => .error ("cannot parse address " ++ destination)

/-! ## Packets (`packet.py`) -/

/-- `PacketTypes` values (the `.value` strings used throughout). -/
def PT_DATA : String := "data"
def PT_ROUTING : String := "routing"
def PT_ICMP : String := "icmp"
def PT_BCAST : String := "BCAST"
def PT_UNKNOWN : String := "unknown"

/-- `Packet`: payload embedded as its list of string entries. -/
structure Packet where
  src : String
  dst : String
  srcPort : Nat := 50000
  dstPort : Nat := 8080
  ptype : String := PT_UNKNOWN
  payload : List String := []
  seq : Nat := 0
  ttl : Int := 255
  deriving DecidableEq, Repr

/-- `RoutingPacket(src)`: broadcast destination, routing type, ports 2300. -/
def mkRoutingPacket (src : String) : Packet :=
  { src := src, dst := PT_BCAST, srcPort := 2300, dstPort := 2300,
    ptype := PT_ROUTING }

/-! ## `Link` (`link.py`) -/

/-- A `Link`: two ends, four queues, liveness flag, per-end sent/received
counters, and the property dict (string-valued, as loaded from JSON). -/
structure Link where
  router0 : String
  iface0 : String
  router1 : String
  iface1 : String
  properties : List (String × String)
  up : Bool := true
  in0 : List Packet := []
  out0 : List Packet := []
  in1 : List Packet := []
  out1 : List Packet := []
  sent0 : Nat := 0
  recv0 : Nat := 0
  sent1 : Nat := 0
  recv1 : Nat := 0
  deriving DecidableEq, Repr

/-- The per-packet step of `movePackets`: data packets get the hop
annotation `"<from>-><to>"` appended to their payload before transfer. -/
def traceHop (fromR toR : String) (p : Packet) : Packet :=
  if p.ptype = PT_DATA then
    { p with payload := p.payload ++ [fromR ++ "->" ++ toR] }
  else p

/-- `movePackets()`: when the link is up, drain each outbound queue in FIFO
order into the opposite inbound queue; when it is down, do nothing. -/
def Link.movePackets (l : Link) : Link :=
  if l.up then
    { l with
      in1 := l.in1 ++ l.out0.map (traceHop l.router0 l.router1),
      out0 := [],
      in0 := l.in0 ++ l.out1.map (traceHop l.router1 l.router0),
      out1 := [] }
  else l

/-- `enqueuePackets(routerid, p)`: append to that end's outbound queue and
count the send (a router id not equal to end 0's id selects end 1, as in
the source's `else`). -/
def Link.enqueuePackets (l : Link) (routerid : String) (p : Packet) : Link :=
  if routerid = l.router0 then
    { l with out0 := l.out0 ++ [p], sent0 := l.sent0 + 1 }
  else
    { l with out1 := l.out1 ++ [p], sent1 := l.sent1 + 1 }

/-- `dequeuePackets(routerid)`: pop the head of that end's inbound queue,
counting the receive; `none` when the queue is empty. -/
def Link.dequeuePackets (l : Link) (routerid : String) :
    Option Packet × Link :=
  if routerid = l.router0 then
    match l.in0 with
    | [] => (none, l)
    | p :: rest => (some p, { l with in0 := rest, recv0 := l.recv0 + 1 })
  else
    match l.in1 with
    | [] => (none, l)
    | p :: rest => (some p, { l with in1 := rest, recv1 := l.recv1 + 1 })

/-- `setState(s)`. -/
def Link.setState (l : Link) (s : Bool) : Link := { l with up := s }

/-! ## The EGP checker's loop test (`checkers.py`) -/

/-- The group keys of `itertools.groupby`: a list with runs of consecutive
duplicates collapsed to one element. -/
def collapseRuns : List String → List String
  | [] => []
  | [a] => [a]
  | a :: b :: rest =>
    if a = b then collapseRuns (b :: rest) else a :: collapseRuns (b :: rest)

/-- `EGPChecker._remove_consecutive_duplicates(s)`: note the source joins
the surviving tokens with `''.join`, i.e. with NO separator, producing a
single undelimited string. -/
def removeConsecutiveDuplicates (s : List String) : String :=
  String.join (collapseRuns s)

/-- `EGPChecker._has_loop(aspath_string)` as written in the source: collapse
runs, join without separator, split again, and compare the count of
distinct tokens with the token count. -/
def checkerHasLoop (aspathString : String) : Bool :=
  let cleanedAspath := removeConsecutiveDuplicates (splitWs aspathString)
  let cleanedAspathList := splitWs cleanedAspath
  cleanedAspathList.eraseDups.length < cleanedAspathList.length

/-- The loop test the spec describes (and the rest of `checkers.py`
documents): some ASN repeats after collapsing runs of consecutive
duplicates.  Kept separate so it can be compared with `checkerHasLoop`. -/
def specHasLoop (aspathString : String) : Bool :=
  let cleaned := collapseRuns (splitWs aspathString)
  cleaned.eraseDups.length < cleaned.length

/-! ## The EGP daemon (`egp.py`) -/

/-- `EGP` state: the daemon's fields after `setParameters` and
`bindToRouter`.  `_ip_to_iface` is built by `setParameters` but never read
afterwards, so it is not carried.  The forwarding table is the bound
router's. -/
structure EGPState where
  asn : String
  ip : String
  neighbours : List (String × String)
  relations : List (String × String)
  received : List (String × List (String × String))
  best : List (String × (String × String))
  advertised : List (String × List (String × String))
  routesChanged : List String
  linkStates : List (String × String)
  firstUpdate : Bool
  fib : ForwardingTable
  deriving DecidableEq, Repr

/-- A freshly constructed, parameterised and bound EGP daemon. -/
def initEGP (asn ip : String) (neighbours relations : List (String × String)) :
    EGPState :=
  ⟨asn, ip, neighbours, relations, [], [], [], [], [], true,
   ForwardingTable.empty⟩

/-- `EGP._has_loop(as_path)`: the daemon's own ASN appears at some
position `> 0` of the token list. -/
def hasLoopEGP (asn : String) (asPath : String) : Bool :=
  ((splitWs asPath).drop 1).contains asn

/-- `EGP._get_relation_priority(relation)`. -/
def relationPriority (relation : String) : Nat :=
  if relation = "customer" then 3
  else if relation = "peer" then 2
  else if relation = "provider" then 1
  else 0

/-- One entry of the `candidates` list of `_select_best_route`:
`(relation_priority, iface, path_length, as_path)`. -/
structure Cand where
  prio : Nat
  iface : String
  plen : Nat
  path : String
  deriving DecidableEq, Repr, Inhabited

/-- The sort order of `candidates.sort(key=lambda x: (-x[0], x[1]))`:
ascending in the key `(-priority, iface)`. -/
def candLe (a b : Cand) : Bool :=
  decide (b.prio < a.prio ∨ (a.prio = b.prio ∧ strLe a.iface b.iface = true))

/-- The candidate-collection loop of `_select_best_route` over
`received[dest].items()`: drop looping paths and down interfaces, attach
the relation priority (an interface missing from `relations` defaults to
`provider`, one missing from the link-state map to `up`). -/
def mkCandList (st : EGPState) (routes : List (String × String)) :
    List Cand :=
  routes.filterMap (fun pr =>
    if hasLoopEGP st.asn pr.2 then none
    else if ((dlookup st.linkStates pr.1).getD "up") = "down" then none
    else some ⟨relationPriority ((dlookup st.relations pr.1).getD "provider"),
               pr.1, (splitWs pr.2).length, pr.2⟩)

/-- The hysteresis scan of `_select_best_route`: walk the sorted tail,
stop at the first candidate of a different relation priority, and switch
to the first candidate whose path is at least 3 tokens shorter. -/
def hystScan (bestPrio : Nat) (bestLen : Nat) : List Cand → Option Cand
  | [] => none
  | c :: cs =>
    if c.prio ≠ bestPrio then none
    else if (3 : Int) ≤ (bestLen : Int) - (c.plen : Int) then some c
    else hystScan bestPrio bestLen cs

/-- The no-valid-route branch of `_select_best_route`: drop `dest` from the
best-route store and from the FIB. -/
def dropBestRoute (st : EGPState) (dest : String) : Except String EGPState := do
  let fib ← st.fib.removeEntryS dest
  .ok { st with best := derase st.best dest, fib := fib }

/-- The tail of `_select_best_route` on the sorted candidate list:
`best = candidates[0]`, then the hysteresis scan over the remaining
candidates, then the best-route store and FIB installation.  (The empty
case cannot arise: the caller sorts a non-empty list.) -/
def selectFromSorted (st : EGPState) (dest : String) :
    List Cand → Except String EGPState
  | [] => .error "unreachable: sorting a non-empty candidate list"
  | b :: rest =>
    let chosen := match hystScan b.prio b.plen rest with
                  | some c => c
                  | none => b
    do
      let fib ← st.fib.setEntryS dest [chosen.iface]
      .ok { st with
            best := dinsert st.best dest (chosen.iface, chosen.path),
            fib := fib }

/-- `EGP._select_best_route(dest)`. -/
def selectBestRoute (st : EGPState) (dest : String) : Except String EGPState :=
  let inner := (dlookup st.received dest).getD []
  if inner.isEmpty then dropBestRoute st dest
  else
    let candidates := mkCandList st inner
    if candidates.isEmpty then dropBestRoute st dest
    else selectFromSorted st dest (sortByB candLe candidates)

/-- `EGP._parse_prefix(data)`: the first token after the first
`prefix:` occurrence, `none` when absent. -/
def parseDest (data : String) : Option String :=
  match pySplitOn data "prefix:" with
  | _ :: second :: _ => (splitWs second).head?
  | _ => none

/-- `EGP._parse_aspath(data)`: the stripped text after the first
`AS-path:` occurrence, `none` when absent. -/
def parseAsPathEGP (data : String) : Option String :=
  match pySplitOn data "AS-path:" with
  | _ :: second :: _ => some (pyStrip second)
  | _ => none

/-- The `EGP-withdrawal` route removal on the looked-up inner map of the
destination: delete `received[dest][iface]` when present, dropping `dest`
when its inner map becomes empty. -/
def removeReceivedCore (st : EGPState) (dest iface : String) :
    Option (List (String × String)) → EGPState
  | some inner =>
    if (dlookup inner iface).isSome then
      let inner' := derase inner iface
      { st with received :=
          if inner'.isEmpty then derase st.received dest
          else dinsert st.received dest inner' }
    else st
  | none => st

/-- The `EGP-withdrawal` route removal of `processRoutingPacket`. -/
def removeReceived (st : EGPState) (dest iface : String) : EGPState :=
  removeReceivedCore st dest iface (dlookup st.received dest)

/-- The `EGP-update` branch of `processRoutingPacket`, on the parse
results of the line: honoured when both parse and the destination is not
yet processed in this packet. -/
def egpUpdateLine (iface : String) (st : EGPState)
    (processed : List String) :
    Option String → Option String → Except String (EGPState × List String)
  | some dest, some asPath =>
    if dest ∈ processed then .ok (st, processed)
    else
      let processed := sadd processed dest
      let newPath := st.asn ++ " " ++ asPath
      let inner := (dlookup st.received dest).getD []
      let st := { st with
        received := dinsert st.received dest (dinsert inner iface newPath) }
      do
        let st ← selectBestRoute st dest
        .ok ({ st with routesChanged := sadd st.routesChanged dest },
             processed)
  | _, _ => .ok (st, processed)

/-- The `EGP-withdrawal` branch of `processRoutingPacket`, on the parse
result of the line. -/
def egpWithdrawLine (iface : String) (st : EGPState)
    (processed : List String) :
    Option String → Except String (EGPState × List String)
  | some dest =>
    if dest ∈ processed then .ok (st, processed)
    else
      let processed := sadd processed dest
      let st := removeReceived st dest iface
      do
        let st ← selectBestRoute st dest
        .ok ({ st with routesChanged := sadd st.routesChanged dest },
             processed)
  | none => .ok (st, processed)

/-- One payload line of `EGP.processRoutingPacket`, threading the
`processed_dests` duplicate filter (`speaker` lines and unrecognised lines
leave the state unchanged; a second update or withdrawal for a destination
already processed in this packet is skipped). -/
def egpProcessLine (iface : String) (st : EGPState) (processed : List String)
    (data : String) : Except String (EGPState × List String) :=
  if pyStartsWith data "speaker" then .ok (st, processed)
  else if pyStartsWith data "EGP-update" then
    egpUpdateLine iface st processed (parseDest data) (parseAsPathEGP data)
  else if pyStartsWith data "EGP-withdrawal" then
    egpWithdrawLine iface st processed (parseDest data)
  else .ok (st, processed)

/-- The line fold of `EGP.processRoutingPacket`. -/
def egpProcessFold (iface : String) : EGPState → List String → List String →
    Except String EGPState
  | st, _, [] => .ok st
  | st, processed, data :: rest => do
    let (st', processed') ← egpProcessLine iface st processed data
    egpProcessFold iface st' processed' rest

/-- `EGP.processRoutingPacket(packet, iface)` on the packet's payload
lines. -/
def processRoutingPacketEGP (st : EGPState) (payload : List String)
    (iface : String) : Except String EGPState :=
  egpProcessFold iface st [] payload

/-- The re-selection loop shared by `_handle_link_down`: re-run selection
for each affected destination and mark it changed. -/
def reselectAll : EGPState → List String → Except String EGPState
  | st, [] => .ok st
  | st, dest :: rest => do
    let st ← selectBestRoute st dest
    reselectAll { st with routesChanged := sadd st.routesChanged dest } rest

/-- `EGP._handle_link_down(iface)`: delete every `received[*][iface]`
(dropping destinations whose inner map becomes empty), then re-select each
affected destination.  The source collects the affected destinations into
a set and iterates it in the set's arbitrary order; distinct destinations
touch disjoint store and FIB keys, so the embedding fixes the
received-store insertion order. -/
def handleLinkDown (st : EGPState) (iface : String) :
    Except String EGPState :=
  let affected := (st.received.filter
      (fun pr => (dlookup pr.2 iface).isSome)).map Prod.fst
  let received' := st.received.filterMap (fun pr =>
      if (dlookup pr.2 iface).isSome then
        let inner' := derase pr.2 iface
        if inner'.isEmpty then none else some (pr.1, inner')
      else some pr)
  reselectAll { st with received := received' } affected

/-- `EGP._handle_link_up(iface)`: reset the advertised map of the revived
interface (only when it already has one) and mark every best-route
destination changed. -/
def handleLinkUp (st : EGPState) (iface : String) : EGPState :=
  let adv := if (dlookup st.advertised iface).isSome then
               dinsert st.advertised iface []
             else st.advertised
  { st with advertised := adv,
            routesChanged := (st.best.map Prod.fst).foldl sadd
              st.routesChanged }

/-- The per-interface loop of `EGP.update`. -/
def egpUpdateFold : EGPState → List (String × String) →
    Except String EGPState
  | st, [] => .ok st
  | st, (iface, newState) :: rest =>
    match dlookup st.linkStates iface with
    | none =>
      egpUpdateFold
        { st with linkStates := dinsert st.linkStates iface newState } rest
    | some oldState =>
      if oldState ≠ newState then
        let st :=
          { st with linkStates := dinsert st.linkStates iface newState }
        if newState = "down" then do
          egpUpdateFold (← handleLinkDown st iface) rest
        else
          egpUpdateFold (handleLinkUp st iface) rest
      else egpUpdateFold st rest

/-- `EGP.update(interfaces2state, currentTime)`: the reported states are a
map interface → state string (the `revenues` entry of the reported dict is
never read by EGP and is omitted). -/
def egpUpdate (st : EGPState) (ifstates : List (String × String)) :
    Except String EGPState := do
  let st ← egpUpdateFold st ifstates
  .ok { st with firstUpdate := false }

/-- `EGP._should_export(route_relation, neighbour_relation)`. -/
def shouldExport (routeRelation neighbourRelation : String) : Bool :=
  if routeRelation = "customer" then true
  else neighbourRelation = "customer"

/-- The relation of an interface as the EGP daemon reads it:
`relations.get(iface, 'provider')`. -/
def relAt (st : EGPState) (iface : String) : String :=
  (dlookup st.relations iface).getD "provider"

/-- The `should_advertise` dict of `generateRoutingPacket`: walk the
best-route store, skip the learning interface (split horizon), apply the
export policy. -/
def egpShouldAdvertise (st : EGPState) (iface : String) :
    List (String × String) :=
  st.best.foldl (fun acc pr =>
    if pr.2.1 = iface then acc
    else if shouldExport (relAt st pr.2.1) (relAt st iface) then
      dinsert acc pr.1 pr.2.2
    else acc) []

/-- The `to_announce` list: entries of `should_advertise` that are new for
this interface or changed since last advertised. -/
def egpToAnnounce (st : EGPState) (iface : String) : List (String × String) :=
  let advIface := (dlookup st.advertised iface).getD []
  (egpShouldAdvertise st iface).filter (fun pr =>
    match dlookup advIface pr.1 with
    | none => true
    | some p => p ≠ pr.2)

/-- The `to_withdraw` list: previously advertised destinations that fell
out of `should_advertise`. -/
def egpToWithdraw (st : EGPState) (iface : String) : List String :=
  let sa := egpShouldAdvertise st iface
  (((dlookup st.advertised iface).getD []).map Prod.fst).filter
    (fun d => (dlookup sa d).isNone)

/-- `"EGP-update prefix: {} AS-path: {}"`. -/
def fmtUpdate (dest asPath : String) : String :=
  "EGP-update prefix: " ++ dest ++ " AS-path: " ++ asPath

/-- `"EGP-withdrawal prefix: {}"`. -/
def fmtWithdrawal (dest : String) : String :=
  "EGP-withdrawal prefix: " ++ dest

/-- `EGP.generateRoutingPacket(iface)`: the emitted payload lines (or
`none`) and the updated daemon state.  The emitted `RoutingPacket` wrapper
is `mkRoutingPacket st.ip` with this payload. -/
def egpGenerate (st : EGPState) (iface : String) :
    Option (List String) × EGPState :=
  if (dlookup st.neighbours iface).isNone then (none, st)
  else if ((dlookup st.linkStates iface).getD "up") = "down" then (none, st)
  else
    let st :=
      { st with advertised :=
          if (dlookup st.advertised iface).isNone then
            dinsert st.advertised iface []
          else st.advertised }
    let ann := egpToAnnounce st iface
    let wd := egpToWithdraw st iface
    if ann.isEmpty ∧ wd.isEmpty then (none, st)
    else
      let advIface := (dlookup st.advertised iface).getD []
      let advIface := ann.foldl (fun m pr => dinsert m pr.1 pr.2) advIface
      let advIface := wd.foldl (fun m d => derase m d) advIface
      let payload := ("speaker: " ++ st.ip) ::
        (ann.map (fun pr => fmtUpdate pr.1 pr.2) ++ wd.map fmtWithdrawal)
      (some payload,
       { st with advertised := dinsert st.advertised iface advIface })

/-! ## The EXT daemon (`ext.py`)

Only the parts the claims exercise are embedded: the constructor /
parameter state, `setDefaultPath`, and `processRoutingPacket`. -/

/-- `EXT` state.  `received` is keyed by the speaker IP named in the
packet, which is `None` until a `speaker` line has been seen — hence the
`Option String` key. -/
structure EXTState where
  asn : String
  ip : String
  lastIfaceState : Option String
  defaults : List (String × (String × String))
  current : List (String × String)
  received : List (Option String × List (String × String))
  destsOffered : List String
  destsNew : List String
  fib : ForwardingTable
  deriving DecidableEq, Repr

/-- A freshly constructed, parameterised and bound EXT daemon. -/
def initEXT (asn ip : String) : EXTState :=
  ⟨asn, ip, none, [], [], [], [], [], ForwardingTable.empty⟩

/-- `d[k]` where Python would raise `KeyError` on a missing key. -/
def lookupOrThrow {α : Type} (m : List (String × α)) (k : String) :
    Except String α :=
  match dlookup m k with
  | some v => .ok v
  | none => .error ("KeyError: " ++ k)

/-- `data.split()[i]` where Python would raise `IndexError` when there are
not enough tokens. -/
def tokenAt (data : String) (i : Nat) : Except String String :=
  match (splitWs data).get? i with
  | some t => .ok t
  | none => .error ("IndexError: " ++ data)

/-- `EXT.setDefaultPath(subnets, aspath, is_public_route)`. -/
def extSetDefaultPath (st : EXTState) (subnets aspath : String)
    (isPublicRoute : Bool) : Except String EXTState := do
  let visibility := if isPublicRoute then "public" else "private"
  let mut st := st
  for subnet in splitWs subnets do
    let fib ← st.fib.setEntryLocalS subnet
    st := { st with
      defaults := dinsert st.defaults subnet (aspath, visibility),
      current := dinsert st.current subnet aspath,
      destsNew := sadd st.destsNew subnet,
      fib := fib }
  .ok st

/-- `EXT._is_destination_local(dest)`: a default exists and its AS path has
at most one distinct ASN. -/
def extIsDestinationLocal (st : EXTState) (dest : String) : Bool :=
  match dlookup st.defaults dest with
  | none => false
  | some (aspath, _) => ¬ ((splitWs aspath).eraseDups.length > 1)

/-- The `EGP-update` branch of `EXT.processRoutingPacket` once the
destination token has been read: raise on a duplicate, otherwise store
the prepended path and install either the neighbour route or the
local/private default. -/
def extUpdateLine (iface : String) (st : EXTState) (speaker : Option String)
    (processed : List String) (dest aspath : String) :
    Except String (EXTState × Option String × List String) :=
  if dest ∈ processed then
    .error ("[EXT] multiple updates or withdrawals in the same packet " ++
      "for the same destination " ++ dest)
  else
    let processed := sadd processed dest
    let prepended := st.asn ++ " " ++ aspath
    let inner := (st.received.find? (fun pr => pr.1 = speaker)).map
      Prod.snd |>.getD []
    let st :=
      { st with received :=
          dinsert st.received speaker (dinsert inner dest prepended) }
    let hasPrivateRoute : Bool :=
      match dlookup st.defaults dest with
      | some (_, vis) => vis = "private"
      | none => false
    if !extIsDestinationLocal st dest && !hasPrivateRoute then
      let destsNew :=
        match dlookup st.current dest, dlookup st.defaults dest with
        | some cur, some (defPath, _) =>
          if cur = defPath then sadd st.destsNew dest else st.destsNew
        | _, _ => st.destsNew
      do
        let fib ← st.fib.setEntryS dest [iface]
        .ok ({ st with
          current := dinsert st.current dest prepended,
          destsNew := destsNew, fib := fib }, speaker, processed)
    else do
      let fib ← st.fib.setEntryS dest [LOOPBACK]
      let dflt ← lookupOrThrow st.defaults dest
      .ok ({ st with
        current := dinsert st.current dest dflt.1,
        fib := fib }, speaker, processed)

/-- The inner `EGP-withdrawal` handling of `EXT.processRoutingPacket`
once the speaker's received map is found, on the lookup of the withdrawn
destination in it: absent destinations are skipped, duplicates raise, and
otherwise the route reverts to the default or is dropped. -/
def extWithdrawInner (iface : String) (st : EXTState)
    (speaker : Option String) (processed : List String) (dest : String)
    (inner : List (String × String)) :
    Option String → Except String (EXTState × Option String × List String)
  | none => .ok (st, speaker, processed)
  | some recPath =>
    if dest ∈ processed then
      .error ("[EXT] multiple updates or withdrawals in the same " ++
        "packet for the same destination " ++ dest)
    else do
      let processed := sadd processed dest
      let curPath ← lookupOrThrow st.current dest
      let st ←
        if recPath = curPath then
          match dlookup st.defaults dest with
          | some (defPath, _) => do
            let fib ← st.fib.setEntryLocalS dest
            pure { st with
              current := dinsert st.current dest defPath,
              destsNew := sadd st.destsNew dest, fib := fib }
          | none => do
            let fib ← st.fib.removeEntryS dest
            pure { st with current := derase st.current dest, fib := fib }
        else pure st
      .ok ({ st with
             received := dinsert st.received speaker (derase inner dest) },
           speaker, processed)

/-- The `EGP-withdrawal` branch of `EXT.processRoutingPacket`, on the
lookup of the speaker in the received store: an unknown speaker is
skipped. -/
def extWithdrawLine (iface : String) (st : EXTState)
    (speaker : Option String) (processed : List String) (dest : String) :
    Option (Option String × List (String × String)) →
      Except String (EXTState × Option String × List String)
  | none => .ok (st, speaker, processed)
  | some (_, inner) =>
    extWithdrawInner iface st speaker processed dest inner
      (dlookup inner dest)

/-- One payload line of `EXT.processRoutingPacket`, threading the current
speaker and the `processed_dests` duplicate guard.  Unlike EGP, a
duplicate update — or a duplicate withdrawal whose destination is still
among the speaker's received routes — raises, as does a line that is
neither `speaker`, `EGP-update` nor `EGP-withdrawal`. -/
def extProcessLine (iface : String) (st : EXTState) (speaker : Option String)
    (processed : List String) (data : String) :
    Except String (EXTState × Option String × List String) :=
  if pyStartsWith data "speaker" then do
    let sp ← tokenAt data 1
    .ok (st, some sp, processed)
  else if pyStartsWith data "EGP-update" then do
    let dest ← tokenAt data 2
    extUpdateLine iface st speaker processed dest
      (String.intercalate " " ((splitWs data).drop 4))
  else if pyStartsWith data "EGP-withdrawal" then do
    let dest ← tokenAt data 2
    extWithdrawLine iface st speaker processed dest
      (st.received.find? (fun pr => pr.1 = speaker))
  else
    .error "[EXT] malformed EGP packet"

/-- The line fold of `EXT.processRoutingPacket`. -/
def extProcessFold (iface : String) : EXTState → Option String →
    List String → List String → Except String EXTState
  | st, _, _, [] => .ok st
  | st, speaker, processed, data :: rest => do
    let (st', speaker', processed') ←
      extProcessLine iface st speaker processed data
    extProcessFold iface st' speaker' processed' rest

/-- `EXT.processRoutingPacket(packet, iface)` on the packet's payload
lines. -/
def processRoutingPacketEXT (st : EXTState) (payload : List String)
    (iface : String) : Except String EXTState :=
  extProcessFold iface st none [] payload

/-! ## SHA-256 (`hashlib.new('sha256')`)

`Router._getOutgoingIface` hashes a string with SHA-256 and reads the hex
digest as a number; the standard algorithm is embedded over byte lists
(`Nat` values < 256) with 32-bit words as `Nat` modulo `2^32`. -/

/-- Truncation to a 32-bit word. -/
def w32 (x : Nat) : Nat := x % 4294967296

/-- 32-bit right rotation. -/
def rotr32 (n x : Nat) : Nat := w32 ((x >>> n) ||| (x <<< (32 - n)))

def shaCh (e f g : Nat) : Nat := (e &&& f) ^^^ ((e ^^^ 4294967295) &&& g)

def shaMaj (a b c : Nat) : Nat := (a &&& b) ^^^ (a &&& c) ^^^ (b &&& c)

def shaS0 (x : Nat) : Nat := rotr32 2 x ^^^ rotr32 13 x ^^^ rotr32 22 x

def shaS1 (x : Nat) : Nat := rotr32 6 x ^^^ rotr32 11 x ^^^ rotr32 25 x

def shaG0 (x : Nat) : Nat := rotr32 7 x ^^^ rotr32 18 x ^^^ (x >>> 3)

def shaG1 (x : Nat) : Nat := rotr32 17 x ^^^ rotr32 19 x ^^^ (x >>> 10)

/-- The SHA-256 round constants (decimal). -/
def shaK : List Nat :=
  [1116352408, 1899447441, 3049323471, 3921009573,
   961987163, 1508970993, 2453635748, 2870763221,
   3624381080, 310598401, 607225278, 1426881987,
   1925078388, 2162078206, 2614888103, 3248222580,
   3835390401, 4022224774, 264347078, 604807628,
   770255983, 1249150122, 1555081692, 1996064986,
   2554220882, 2821834349, 2952996808, 3210313671,
   3336571891, 3584528711, 113926993, 338241895,
   666307205, 773529912, 1294757372, 1396182291,
   1695183700, 1986661051, 2177026350, 2456956037,
   2730485921, 2820302411, 3259730800, 3345764771,
   3516065817, 3600352804, 4094571909, 275423344,
   430227734, 506948616, 659060556, 883997877,
   958139571, 1322822218, 1537002063, 1747873779,
   1955562222, 2024104815, 2227730452, 2361852424,
   2428436474, 2756734187, 3204031479, 3329325298]

/-- The SHA-256 working variables. -/
structure Hash8 where
  a : Nat
  b : Nat
  c : Nat
  d : Nat
  e : Nat
  f : Nat
  g : Nat
  h : Nat
  deriving Repr, DecidableEq

/-- The SHA-256 initial hash value (decimal). -/
def shaH0 : Hash8 :=
  ⟨1779033703, 3144134277, 1013904242, 2773480762,
   1359893119, 2600822924, 528734635, 1541459225⟩

/-- A natural number as `count` big-endian bytes. -/
def natToBytesBE : Nat → Nat → List Nat
  | 0, _ => []
  | k + 1, n => natToBytesBE k (n / 256) ++ [n % 256]

/-- SHA-256 message padding: `0x80`, zeros to 56 mod 64, the bit length as
8 big-endian bytes. -/
def sha256pad (msg : List Nat) : List Nat :=
  let L := msg.length
  let z := (120 - (L + 1) % 64) % 64
  msg ++ [0x80] ++ List.replicate z 0 ++ natToBytesBE 8 (8 * L)

/-- Group bytes into big-endian 32-bit words. -/
def bytesToWords : List Nat → List Nat
  | b0 :: b1 :: b2 :: b3 :: rest =>
    (((b0 * 256 + b1) * 256 + b2) * 256 + b3) :: bytesToWords rest
  | _ => []

/-- Extend the 16-word block to the 64-word message schedule. -/
def extendSchedule : Nat → List Nat → List Nat
  | 0, ws => ws
  | n + 1, ws =>
    let i := ws.length
    let w := w32 (ws.getD (i - 16) 0 + shaG0 (ws.getD (i - 15) 0) +
                  ws.getD (i - 7) 0 + shaG1 (ws.getD (i - 2) 0))
    extendSchedule n (ws ++ [w])

/-- One SHA-256 compression round. -/
def shaRound (st : Hash8) (kw : Nat × Nat) : Hash8 :=
  let t1 := w32 (st.h + shaS1 st.e + shaCh st.e st.f st.g + kw.1 + kw.2)
  let t2 := w32 (shaS0 st.a + shaMaj st.a st.b st.c)
  ⟨w32 (t1 + t2), st.a, st.b, st.c, w32 (st.d + t1), st.e, st.f, st.g⟩

/-- Compress one 64-byte block into the running hash. -/
def shaCompress (h0 : Hash8) (block : List Nat) : Hash8 :=
  let ws := extendSchedule 48 (bytesToWords block)
  let st := (shaK.zip ws).foldl shaRound h0
  ⟨w32 (h0.a + st.a), w32 (h0.b + st.b), w32 (h0.c + st.c),
   w32 (h0.d + st.d), w32 (h0.e + st.e), w32 (h0.f + st.f),
   w32 (h0.g + st.g), w32 (h0.h + st.h)⟩

/-- Split a byte list into 64-byte blocks. -/
def chunks64 (l : List Nat) : List (List Nat) :=
  if l.isEmpty then []
  else l.take 64 :: chunks64 (l.drop 64)
termination_by l.length
decreasing_by
  simp only [List.length_drop]
  cases l with
  | nil => simp_all
  | cons a t =>
    rw [List.length_cons]
    exact Nat.sub_lt (Nat.succ_pos _) (by decide)

/-- The SHA-256 digest of a byte message, read as the 256-bit big-endian
number `int(hexdigest, 16)` yields. -/
def sha256Nat (msg : List Nat) : Nat :=
  let fin := (chunks64 (sha256pad msg)).foldl shaCompress shaH0
  [fin.a, fin.b, fin.c, fin.d, fin.e, fin.f, fin.g, fin.h].foldl
    (fun acc w => acc * 4294967296 + w) 0

/-- UTF-8 encoding of one character (`str.encode()`). -/
def utf8Char (c : Char) : List Nat :=
  let n := c.toNat
  if n < 128 then [n]
  else if n < 2048 then [192 + n / 64, 128 + n % 64]
  else if n < 65536 then
    [224 + n / 4096, 128 + (n / 64) % 64, 128 + n % 64]
  else
    [240 + n / 262144, 128 + (n / 4096) % 64, 128 + (n / 64) % 64,
     128 + n % 64]

/-- UTF-8 encoding of a string (`str.encode()`). -/
def utf8Encode (s : String) : List Nat :=
  (s.data.map utf8Char).flatten

/-! ## `Router` (`router.py`) -/

/-- `Packet.__str__`, used in the data-plane log lines. -/
def packetStr (p : Packet) : String :=
  let quote := String.singleton (Char.ofNat 39)
  let s := "type " ++ p.ptype ++ " src " ++ p.src ++ ":" ++
    toString p.srcPort ++ " dst " ++ p.dst ++ ":" ++ toString p.dstPort ++
    " ttl " ++ toString p.ttl ++ " seq " ++ toString p.seq
  let s :=
    if p.ptype = PT_DATA then
      if p.payload.length > 0 then
        s ++ " path" ++ String.join (p.payload.map
          (fun i => " (" ++ i ++ ")"))
      else s
    else
      s ++ " payload [" ++
        String.intercalate ", " (p.payload.map
          (fun i => quote ++ i ++ quote)) ++ "]"
  "<" ++ s ++ ">"

/-- The data-plane state of one `Router`.  The links dict maps each local
interface name to the (shared) link object; a single-router view owns its
copies. -/
structure RouterState where
  id : String
  ip : String
  links : List (String × Link)
  fib : ForwardingTable
  cSent : Nat := 0
  cRecv : Nat := 0
  cDrop : Nat := 0
  cForw : Nat := 0
  numSentRoutingPackets : Nat := 0
  originatedIcmpPackets : List (Option String × Nat) := []
  ifacesNoIcmp : List String := []
  deriving DecidableEq, Repr

/-- `Router.isInterfaceUp(iface)`: `LOOPBACK` counts as up; otherwise the
link is looked up (a `KeyError` on an unknown interface propagates). -/
def isInterfaceUp (rst : RouterState) (iface : String) :
    Except String Bool :=
  if iface = LOOPBACK then .ok true
  else do
    let l ← lookupOrThrow rst.links iface
    .ok l.up

/-- `Router._getOutgoingIface(ifaces, packet)`: SHA-256 of the
concatenation of router id, source port, destination port, source and
destination, modulo the candidate count, indexing the candidate list.
(The call site guarantees a non-empty list; Python would raise
`ZeroDivisionError` on an empty one, here the dummy `""` is returned.) -/
def getOutgoingIface (rid : String) (ifaces : List String) (p : Packet) :
    String :=
  let string2hash := rid ++ toString p.srcPort ++ toString p.dstPort ++
    p.src ++ p.dst
  ifaces.getD (sha256Nat (utf8Encode string2hash) % ifaces.length) ""

/-- `Router._incrementOriginatedIcmps(expired_packet_iface)`. -/
def incrementOriginatedIcmps (rst : RouterState)
    (iface : Option String) : RouterState :=
  let old := ((rst.originatedIcmpPackets.find?
    (fun pr => pr.1 = iface)).map Prod.snd).getD 0
  { rst with originatedIcmpPackets :=
      dinsert rst.originatedIcmpPackets iface (old + 1) }

/-- `Router._generateIcmpPacket(expired_packet, incoming_iface)`: count the
expiry, suppress when the incoming interface is in the no-ICMP set (a
`None` incoming interface is never in that set of interface names), and
otherwise build the ICMP packet addressed back to the expired packet's
source. -/
def generateIcmpPacket (rst : RouterState) (expired : Packet)
    (incomingIface : Option String) : RouterState × Option Packet :=
  let rst := incrementOriginatedIcmps rst incomingIface
  let suppressed : Bool :=
    match incomingIface with
    | some i => i ∈ rst.ifacesNoIcmp
    | none => false
  if suppressed then (rst, none)
  else
    (rst, some { src := rst.id, dst := expired.src, ptype := PT_ICMP,
                 dstPort := expired.srcPort, seq := expired.seq })

/-- `Router.send(p, out_iface, in_iface)`.  The `fuel` bounds the
recursion through the ICMP branch (a fresh ICMP packet has TTL 255, so a
depth of 2 always suffices); exhausted fuel is an error no actual run
reaches.  `send(None)` returns immediately with no effect. -/
def routerSend : Nat → RouterState → Option Packet → Option String →
    Option String → Except String (RouterState × List String)
  | 0, _, _, _, _ => .error "send recursion limit"
  | fuel + 1, rst, popt, outIface, inIface =>
    match popt with
    | none => .ok (rst, [])
    | some p =>
      let isDataPacket := p.ptype = PT_DATA
      let afterIface :
          RouterState → String → Except String (RouterState × List String) :=
        fun rst outgoingIface =>
        if outgoingIface = LOOPBACK then
          .ok ({ rst with cRecv := rst.cRecv + 1 },
               ["Router " ++ rst.id ++ ": Consumed packet " ++ packetStr p])
        else do
          let up ← isInterfaceUp rst outgoingIface
          if ¬ up then
            .ok ({ rst with cDrop := rst.cDrop + 1 },
                 if isDataPacket then
                   ["Router " ++ rst.id ++ ": Outgoing interface " ++
                    outgoingIface ++ " is down, DROP packet " ++ packetStr p]
                 else [])
          else if p.ttl < 1 then do
            let outlog := if isDataPacket then
              ["Router " ++ rst.id ++ ": Expired TTL, DROP packet "]
              else []
            let rst := { rst with cDrop := rst.cDrop + 1 }
            let (rst, newp) := generateIcmpPacket rst p inIface
            let (rst, recLog) ← routerSend fuel rst newp none none
            .ok (rst, outlog ++ recLog)
          else
            let p := { p with ttl := p.ttl - 1 }
            let (rst, outlog) :=
              if isDataPacket then
                if p.payload.length = 0 then
                  ({ rst with cSent := rst.cSent + 1 },
                   ["Router " ++ rst.id ++ ": Sent NEW packet " ++
                    packetStr p ++ " over outgoing interface " ++
                    outgoingIface])
                else
                  ({ rst with cForw := rst.cForw + 1 },
                   ["Router " ++ rst.id ++ ": Forwarded packet " ++
                    packetStr p ++ " over outgoing interface " ++
                    outgoingIface])
              else (rst, [])
            if outgoingIface ≠ LOOPBACK ∨ p.ptype ≠ PT_ICMP then do
              let l ← lookupOrThrow rst.links outgoingIface
              let links := dinsert rst.links outgoingIface
                (l.enqueuePackets rst.id p)
              .ok ({ rst with links := links }, outlog)
            else .ok (rst, outlog)
      match outIface with
      | some oi => afterIface rst oi
      | none => do
        let ifaces ← rst.fib.getNextHopsS p.dst
        if ifaces.isEmpty then
          .ok ({ rst with cDrop := rst.cDrop + 1 },
               if isDataPacket then
                 ["Router " ++ rst.id ++
                  ": No outgoing interfaces, DROP packet " ++ packetStr p]
               else [])
        else afterIface rst (getOutgoingIface rst.id ifaces p)

/-! ## Spec-side definitions

These definitions follow the SPEC's wording (candidate set, sort key,
hysteresis switch) and are proved to coincide with the selection the code
performs. -/

/-- The spec's candidate condition for a `(iface, path)` pair of
`received[P]`: the daemon's own ASN does not appear beyond position 0 and
the interface is not down. -/
def specCandPred (st : EGPState) (pr : String × String) : Bool :=
  decide (hasLoopEGP st.asn pr.2 = false ∧
    ((dlookup st.linkStates pr.1).getD "up") ≠ "down")

/-- The candidate record the code builds for a `(iface, path)` pair. -/
def mkCandOf (st : EGPState) (pr : String × String) : Cand :=
  ⟨relationPriority ((dlookup st.relations pr.1).getD "provider"),
   pr.1, (splitWs pr.2).length, pr.2⟩

/-- The spec's switch condition on a subsequent candidate: same relation
priority as the head and a path at least 3 tokens shorter. -/
def specSwitchPred (b : Cand) (c : Cand) : Bool :=
  decide (c.prio = b.prio ∧ (3 : Int) ≤ (b.plen : Int) - (c.plen : Int))

/-- The spec's selected candidate: the head of the sorted list unless a
first subsequent candidate satisfies the switch condition. -/
def specChoose (b : Cand) (rest : List Cand) : Cand :=
  match rest.find? (specSwitchPred b) with
  | some cc => cc
  | none => b

/-! ## Concrete fixture states

Small concrete daemon / link / router states used to instantiate the
theorems on explicit inputs. -/

/-- An EGP daemon of AS 1 with two customer neighbours and two received
routes for `10.0.0.0/24`: a 5-token path via `i0` and a 2-token path via
`i1`. -/
def egpStW : EGPState :=
  { initEGP "1" "10.0.0.1" [("i0", "10.0.0.2"), ("i1", "10.0.0.3")]
      [("i0", "customer"), ("i1", "customer")] with
    received := [("10.0.0.0/24", [("i0", "1 2 3 4 5"), ("i1", "1 9")])] }

/-- An EGP daemon of AS 1 with a customer, a provider and a peer
neighbour, and one best route learned from the provider (`i1`). -/
def egpGenW : EGPState :=
  { initEGP "1" "10.0.0.1"
      [("i0", "10.0.0.2"), ("i1", "10.0.0.3"), ("i2", "10.0.0.4")]
      [("i0", "customer"), ("i1", "provider"), ("i2", "peer")] with
    best := [("10.0.0.0/24", ("i1", "1 5 9"))] }

/-- The state of a freshly configured single-neighbour EGP daemon of AS 1
after processing one update for `10.0.0.0/24` with AS path `2 3`. -/
def egpStC5 : EGPState :=
  { asn := "1", ip := "10.0.0.1", neighbours := [("i0", "10.0.0.2")],
    relations := [("i0", "customer")],
    received := [("10.0.0.0/24", [("i0", "1 2 3")])],
    best := [("10.0.0.0/24", ("i0", "1 2 3"))],
    advertised := [], routesChanged := ["10.0.0.0/24"], linkStates := [],
    firstUpdate := true,
    fib := ⟨[(⟨167772160, 24⟩, ["i0"])], 1⟩ }

/-- An EXT daemon of AS 7 that already holds one route for
`10.0.0.0/24`, received from the EGP neighbour `10.0.0.1`. -/
def extC9 : EXTState :=
  { initEXT "7" "10.0.0.9" with
    received := [(some "10.0.0.1", [("10.0.0.0/24", "7 1 3")])],
    current := [("10.0.0.0/24", "7 1 3")] }

/-- A data packet used by the link fixtures. -/
def pkC3 : Packet := { src := "10.0.0.5", dst := "10.0.1.7", ptype := PT_DATA }

/-- A DOWN link with one packet waiting in end 0's outbound queue. -/
def lnkC3 : Link :=
  { router0 := "A", iface0 := "i0", router1 := "B", iface1 := "j0",
    properties := [], up := false, out0 := [pkC3] }

/-- An UP link between routers `A` and `B`, used by the router fixtures. -/
def lnkC8 : Link :=
  { router0 := "A", iface0 := "i0", router1 := "B", iface1 := "j0",
    properties := [] }

/-- A router with one up link and an empty FIB. -/
def rstC8 : RouterState :=
  { id := "A", ip := "10.0.0.250", links := [("i0", lnkC8)],
    fib := ForwardingTable.empty }

/-- An expired data packet (TTL 0) from `10.0.0.5` to `10.0.1.7`. -/
def pkC8 : Packet :=
  { src := "10.0.0.5", dst := "10.0.1.7", ptype := PT_DATA, srcPort := 11,
    ttl := 0 }

/-- A router whose FIB routes `10.0.1.0/24` over the single interface
`i0`. -/
def rstC6 : RouterState :=
  { id := "A", ip := "10.0.0.250", links := [("i0", lnkC8)],
    fib := ⟨[(⟨167772416, 24⟩, ["i0"])], 1⟩ }

/-- A live data packet to `10.0.1.7`. -/
def pkC6 : Packet :=
  { src := "10.0.0.5", dst := "10.0.1.7", ptype := PT_DATA, srcPort := 11,
    dstPort := 80, ttl := 10 }

/-! ## Reachable EGP daemon states -/

/-- The states an EGP daemon can be in: freshly configured, or the result
of any sequence of `processRoutingPacket`, `update` and
`generateRoutingPacket` calls (the only daemon entry points that touch the
route stores). -/
inductive EGPReach : EGPState → Prop
  | init (asn ip : String) (nb rel : List (String × String)) :
      EGPReach (initEGP asn ip nb rel)
  | proc (st st' : EGPState) (pl : List String) (iface : String) :
      EGPReach st → processRoutingPacketEGP st pl iface = .ok st' →
      EGPReach st'
  | upd (st st' : EGPState) (ifs : List (String × String)) :
      EGPReach st → egpUpdate st ifs = .ok st' → EGPReach st'
  | gen (st : EGPState) (iface : String) :
      EGPReach st → EGPReach (egpGenerate st iface).2

/-- A well-formed ASN as configuration provides it: a non-empty token
without spaces (otherwise the textual wire format could not carry it). -/
def asnToken (asn : String) : Prop :=
  asn ≠ "" ∧ ∀ c ∈ asn.data, c ≠ ' '

/-- Every path in the received-routes store starts with the daemon's own
ASN (the daemon prepends it on receipt). -/
def recvInv (st : EGPState) : Prop :=
  ∀ pr ∈ st.received, ∀ q ∈ pr.2, (splitWs q.2).head? = some st.asn

/-- Every best-route path starts with the daemon's own ASN and does not
repeat it later (the loop filter admitted it). -/
def bestInv (st : EGPState) : Prop :=
  ∀ pr ∈ st.best, (splitWs pr.2.2).head? = some st.asn ∧
    st.asn ∉ (splitWs pr.2.2).drop 1

/-! ## Association-list lemmas -/

section DictLemmas

variable {κ : Type} {α : Type} [DecidableEq κ]

theorem dlookup_nil (k : κ) : dlookup ([] : List (κ × α)) k = none := rfl

theorem dlookup_cons (p : κ × α) (m : List (κ × α)) (k : κ) :
    dlookup (p :: m) k = if p.1 = k then some p.2 else dlookup m k := by
  by_cases h : p.1 = k <;> simp [dlookup, List.find?_cons, h]

theorem dlookup_eq_none_iff (m : List (κ × α)) (k : κ) :
    dlookup m k = none ↔ m.find? (fun p => p.1 = k) = none := by
  simp [dlookup]

theorem dlookup_derase_self (m : List (κ × α)) (k : κ) :
    dlookup (derase m k) k = none := by
  induction m with
  | nil => rfl
  | cons a t ih =>
    by_cases h : a.1 = k
    · simpa [derase, List.filter_cons, h] using ih
    · simpa [derase, List.filter_cons, h, dlookup_cons] using ih

theorem dlookup_derase (m : List (κ × α)) (k k' : κ) (h : k' ≠ k) :
    dlookup (derase m k) k' = dlookup m k' := by
  induction m with
  | nil => rfl
  | cons a t ih =>
    by_cases ha : a.1 = k
    · rw [show derase (a :: t) k = derase t k by
        simp [derase, List.filter_cons, ha]]
      rw [ih, dlookup_cons, if_neg (by rw [ha]; exact fun e => h e.symm)]
    · rw [show derase (a :: t) k = a :: derase t k by
        simp [derase, List.filter_cons, ha]]
      rw [dlookup_cons, dlookup_cons, ih]

theorem dinsert_of_lookup_none (m : List (κ × α)) (k : κ) (v : α)
    (h : dlookup m k = none) : dinsert m k v = m ++ [(k, v)] := by
  rw [dlookup_eq_none_iff] at h
  simp [dinsert, h]

theorem dlookup_append (m1 m2 : List (κ × α)) (k : κ) :
    dlookup (m1 ++ m2) k = (dlookup m1 k).or (dlookup m2 k) := by
  simp only [dlookup, List.find?_append]
  cases List.find? (fun p => decide (p.1 = k)) m1 <;> rfl

theorem dlookup_map_replace (m : List (κ × α)) (k k' : κ) (v : α) :
    dlookup (m.map (fun p => if p.1 = k then (k, v) else p)) k' =
      if k' = k then (dlookup m k).map (fun _ => v) else dlookup m k' := by
  induction m with
  | nil => by_cases h : k' = k <;> simp [dlookup, h]
  | cons p t ih =>
    by_cases hp : p.1 = k
    · by_cases hk : k' = k
      · rw [List.map_cons, if_pos hp, if_pos hk, dlookup_cons,
          dlookup_cons, if_pos hp, if_pos (by rw [hk])]
        rfl
      · rw [List.map_cons, if_pos hp, if_neg hk, dlookup_cons,
          if_neg (fun e : k = k' => hk e.symm), ih, if_neg hk,
          dlookup_cons, if_neg (by rw [hp]; exact fun e => hk e.symm)]
    · by_cases hk : k' = k
      · rw [List.map_cons, if_neg hp, if_pos hk, dlookup_cons,
          if_neg (show ¬ p.1 = k' by rw [hk]; exact hp), ih, if_pos hk,
          dlookup_cons, if_neg (show ¬ p.1 = k by exact hp)]
      · rw [List.map_cons, if_neg hp, if_neg hk, dlookup_cons, ih,
          if_neg hk, dlookup_cons]

theorem dlookup_dinsert (m : List (κ × α)) (k k' : κ) (v : α) :
    dlookup (dinsert m k v) k' =
      if k' = k then some v else dlookup m k' := by
  by_cases hf : (m.find? (fun p => p.1 = k)).isSome
  · rw [show dinsert m k v =
        m.map (fun p => if p.1 = k then (k, v) else p) by simp [dinsert, hf]]
    rw [dlookup_map_replace]
    by_cases hk : k' = k
    · rw [if_pos hk, if_pos hk]
      obtain ⟨p, hp⟩ := Option.isSome_iff_exists.mp hf
      simp [dlookup, hp]
    · rw [if_neg hk, if_neg hk]
  · have hnone : m.find? (fun p => p.1 = k) = none := by
      cases h : m.find? (fun p => p.1 = k) <;> simp_all
    rw [show dinsert m k v = m ++ [(k, v)] by simp [dinsert, hnone]]
    rw [dlookup_append]
    by_cases hk : k' = k
    · rw [if_pos hk, show dlookup m k' = none by
        rw [hk, dlookup_eq_none_iff]; exact hnone]
      simp [dlookup, hk]
    · rw [if_neg hk]
      have hsingle : dlookup [(k, v)] k' = (none : Option α) := by
        rw [dlookup_cons, if_neg (fun e : k = k' => hk e.symm)]; rfl
      rw [hsingle]
      cases dlookup m k' <;> rfl

theorem mem_dinsert {m : List (κ × α)} {k : κ} {v : α} {x : κ × α}
    (h : x ∈ dinsert m k v) : x ∈ m ∨ x = (k, v) := by
  by_cases hf : (m.find? (fun p => p.1 = k)).isSome
  · rw [show dinsert m k v =
        m.map (fun p => if p.1 = k then (k, v) else p) by simp [dinsert, hf]]
      at h
    obtain ⟨p, hp, he⟩ := List.mem_map.mp h
    by_cases hpk : p.1 = k
    · right; rw [← he, if_pos hpk]
    · left; rwa [← he, if_neg hpk]
  · rw [show dinsert m k v = m ++ [(k, v)] by simp [dinsert, hf]] at h
    rcases List.mem_append.mp h with h | h
    · exact Or.inl h
    · exact Or.inr (List.mem_singleton.mp h)

theorem mem_derase {m : List (κ × α)} {k : κ} {x : κ × α}
    (h : x ∈ derase m k) : x ∈ m :=
  List.mem_of_mem_filter h

end DictLemmas

/-- Reduction of an `Except` bind whose first component is `Except.ok`. -/
theorem exceptBind_ok {α β : Type} (a : α) (f : α → Except String β) :
    (do
      let x ← (Except.ok a : Except String α)
      f x) = f a := rfl

/-! ## Sorting lemmas -/

section SortLemmas

variable {α : Type} (le : α → α → Bool)

theorem mem_insSorted {x z : α} :
    ∀ {l : List α}, z ∈ insSorted le x l ↔ z = x ∨ z ∈ l := by
  intro l
  induction l with
  | nil => simp [insSorted]
  | cons y ys ih =>
    by_cases h : le x y
    · simp [insSorted, h]
    · rw [show insSorted le x (y :: ys) = y :: insSorted le x ys by
        rw [insSorted, if_neg (by simp [h])]]
      rw [List.mem_cons, ih, List.mem_cons]
      tauto

theorem insSorted_ne_nil (x : α) (l : List α) : insSorted le x l ≠ [] := by
  cases l with
  | nil => simp [insSorted]
  | cons y ys =>
    by_cases h : le x y <;> simp [insSorted, h]

theorem sortByB_ne_nil (x : α) (l : List α) :
    sortByB le (x :: l) ≠ [] := by
  rw [sortByB, List.foldr_cons]
  exact insSorted_ne_nil le x _

theorem mem_sortByB {z : α} :
    ∀ {l : List α}, z ∈ sortByB le l ↔ z ∈ l := by
  intro l
  induction l with
  | nil => simp [sortByB]
  | cons y ys ih =>
    rw [sortByB, List.foldr_cons]
    rw [show List.foldr (insSorted le) [] ys = sortByB le ys from rfl] at *
    rw [mem_insSorted, ih, List.mem_cons]

theorem insSorted_pairwise
    (htot : ∀ a b, le a b = false → le b a = true)
    (htrans : ∀ a b c, le a b = true → le b c = true → le a c = true)
    (x : α) :
    ∀ {l : List α}, l.Pairwise (fun a b => le a b = true) →
      (insSorted le x l).Pairwise (fun a b => le a b = true) := by
  intro l
  induction l with
  | nil => intro _; simp [insSorted]
  | cons y ys ih =>
    intro hp
    rcases List.pairwise_cons.mp hp with ⟨hy, hys⟩
    by_cases h : le x y
    · rw [insSorted, if_pos h]
      refine List.pairwise_cons.mpr ⟨?_, hp⟩
      intro z hz
      rcases List.mem_cons.mp hz with rfl | hz
      · exact h
      · exact htrans x y z h (hy z hz)
    · rw [insSorted, if_neg (by simp [h])]
      refine List.pairwise_cons.mpr ⟨?_, ih hys⟩
      intro z hz
      rcases (mem_insSorted le).mp hz with hzx | hz
      · rw [hzx]
        exact htot _ y (by simpa using h)
      · exact hy z hz

theorem sortByB_pairwise
    (htot : ∀ a b, le a b = false → le b a = true)
    (htrans : ∀ a b c, le a b = true → le b c = true → le a c = true) :
    ∀ (l : List α),
      (sortByB le l).Pairwise (fun a b => le a b = true) := by
  intro l
  induction l with
  | nil => simp [sortByB]
  | cons y ys ih =>
    rw [sortByB, List.foldr_cons]
    exact insSorted_pairwise le htot htrans y ih

end SortLemmas

/-! ## Candidate-order lemmas -/

theorem charListLe_total :
    ∀ a b : List Char, charListLe a b = false → charListLe b a = true := by
  intro a
  induction a with
  | nil => intro b h; simp [charListLe] at h
  | cons x xs ih =>
    intro b h
    cases b with
    | nil => simp [charListLe]
    | cons y ys =>
      by_cases h1 : x.toNat < y.toNat
      · rw [charListLe, if_pos h1] at h; cases h
      · by_cases h2 : y.toNat < x.toNat
        · rw [charListLe, if_pos h2]
        · rw [charListLe, if_neg h1, if_neg h2] at h
          rw [charListLe, if_neg h2, if_neg h1]
          exact ih ys h

theorem charListLe_trans :
    ∀ a b c : List Char, charListLe a b = true → charListLe b c = true →
      charListLe a c = true := by
  intro a
  induction a with
  | nil => intro b c _ _; rfl
  | cons x xs ih =>
    intro b c h1 h2
    cases b with
    | nil => rw [charListLe] at h1; cases h1
    | cons y ys =>
      cases c with
      | nil => rw [charListLe] at h2; cases h2
      | cons z zs =>
        rw [charListLe] at h1 h2 ⊢
        by_cases hxy : x.toNat < y.toNat
        · by_cases hyz : y.toNat < z.toNat
          · rw [if_pos (hxy.trans hyz)]
          · by_cases hzy : z.toNat < y.toNat
            · rw [if_neg hyz, if_pos hzy] at h2; cases h2
            · have : y.toNat = z.toNat :=
                le_antisymm (not_lt.mp hzy) (not_lt.mp hyz)
              rw [if_pos (this ▸ hxy)]
        · by_cases hyx : y.toNat < x.toNat
          · rw [if_neg hxy, if_pos hyx] at h1; cases h1
          · have hxyeq : x.toNat = y.toNat :=
              le_antisymm (not_lt.mp hyx) (not_lt.mp hxy)
            rw [if_neg hxy, if_neg hyx] at h1
            by_cases hyz : y.toNat < z.toNat
            · rw [if_pos (hxyeq ▸ hyz)]
            · by_cases hzy : z.toNat < y.toNat
              · rw [if_neg hyz, if_pos hzy] at h2; cases h2
              · rw [if_neg hyz, if_neg hzy] at h2
                rw [if_neg (hxyeq ▸ hyz), if_neg (hxyeq ▸ hzy)]
                exact ih ys zs h1 h2

theorem strLe_total (a b : String) (h : strLe a b = false) :
    strLe b a = true := charListLe_total a.data b.data h

theorem strLe_trans (a b c : String) (h1 : strLe a b = true)
    (h2 : strLe b c = true) : strLe a c = true :=
  charListLe_trans a.data b.data c.data h1 h2

theorem candLe_total (a b : Cand) (h : candLe a b = false) :
    candLe b a = true := by
  simp only [candLe, decide_eq_false_iff_not, decide_eq_true_eq,
    not_or, not_and, not_lt] at *
  obtain ⟨h1, h2⟩ := h
  by_cases he : a.prio = b.prio
  · right
    refine ⟨he.symm, ?_⟩
    have hf : strLe a.iface b.iface = false := by
      cases hv : strLe a.iface b.iface
      · rfl
      · exact absurd hv (h2 he)
    exact strLe_total _ _ hf
  · left
    exact lt_of_le_of_ne h1 he

theorem candLe_trans (a b c : Cand) (h1 : candLe a b = true)
    (h2 : candLe b c = true) : candLe a c = true := by
  simp only [candLe, decide_eq_true_eq] at *
  rcases h1 with h1 | ⟨h1e, h1s⟩ <;> rcases h2 with h2 | ⟨h2e, h2s⟩
  · exact Or.inl (h2.trans h1)
  · exact Or.inl (h2e ▸ h1)
  · exact Or.inl (h1e ▸ h2)
  · exact Or.inr ⟨h1e.trans h2e, strLe_trans _ _ _ h1s h2s⟩

theorem candLe_prio {a b : Cand} (h : candLe a b = true) :
    b.prio ≤ a.prio := by
  simp only [candLe, decide_eq_true_eq] at h
  rcases h with h | ⟨he, _⟩
  · exact le_of_lt h
  · exact le_of_eq he.symm

/-- The break-based hysteresis scan equals the spec's "first subsequent
candidate of the same relation priority with a ≥ 3 shorter path" when the
scanned list has nonincreasing priorities bounded by the head's. -/
theorem hystScan_eq_find (b : Cand) (l : List Cand)
    (hall : ∀ c ∈ l, c.prio ≤ b.prio)
    (hpair : l.Pairwise (fun a c => c.prio ≤ a.prio)) :
    hystScan b.prio b.plen l = l.find? (specSwitchPred b) := by
  induction l with
  | nil => rfl
  | cons c cs ih =>
    rcases List.pairwise_cons.mp hpair with ⟨hc, hcs⟩
    by_cases hp : c.prio = b.prio
    · by_cases hlen : (3 : Int) ≤ (b.plen : Int) - (c.plen : Int)
      · rw [hystScan, if_neg (by simp [hp]), if_pos hlen,
          List.find?_cons_of_pos _ (by simp [specSwitchPred, hp, hlen])]
      · rw [hystScan, if_neg (by simp [hp]), if_neg hlen,
          List.find?_cons_of_neg _ (by simp [specSwitchPred, hp, hlen])]
        exact ih (fun d hd => hall d (List.mem_cons_of_mem c hd)) hcs
    · rw [hystScan, if_pos (by simp [hp]),
        List.find?_cons_of_neg _ (by simp [specSwitchPred, hp])]
      have hlt : c.prio < b.prio :=
        lt_of_le_of_ne (hall c (List.mem_cons_self c cs)) hp
      symm
      apply List.find?_eq_none.mpr
      intro d hd
      simp only [specSwitchPred, decide_eq_true_eq, not_and]
      intro hdp
      exact absurd hdp (Nat.ne_of_lt (lt_of_le_of_lt (hc d hd) hlt))

/-- The candidate-collection loop as filter-then-map of the spec's
candidate condition. -/
theorem mkCandList_eq (st : EGPState) (routes : List (String × String)) :
    mkCandList st routes =
      (routes.filter (specCandPred st)).map (mkCandOf st) := by
  induction routes with
  | nil => rfl
  | cons pr rest ih =>
    by_cases h1 : hasLoopEGP st.asn pr.2
    · rw [show mkCandList st (pr :: rest) = mkCandList st rest by
        simp [mkCandList, List.filterMap_cons, h1], ih,
        List.filter_cons, if_neg (by simp [specCandPred, h1])]
    · by_cases h2 : ((dlookup st.linkStates pr.1).getD "up") = "down"
      · rw [show mkCandList st (pr :: rest) = mkCandList st rest by
          simp [mkCandList, List.filterMap_cons, h1, h2], ih,
          List.filter_cons, if_neg (by simp [specCandPred, h1, h2])]
      · rw [show mkCandList st (pr :: rest) =
            mkCandOf st pr :: mkCandList st rest by
          simp [mkCandList, List.filterMap_cons, h1, h2, mkCandOf], ih,
          List.filter_cons, if_pos (by simp [specCandPred, h1, h2]),
          List.map_cons]

/-! ## Invariant support lemmas -/

theorem dlookup_mem {κ α : Type} [DecidableEq κ] {m : List (κ × α)}
    {k : κ} {v : α} (h : dlookup m k = some v) : (k, v) ∈ m := by
  induction m with
  | nil => cases h
  | cons a t ih =>
    rw [dlookup_cons] at h
    by_cases ha : a.1 = k
    · rw [if_pos ha] at h
      have hv : a.2 = v := Option.some.inj h
      exact List.mem_cons.mpr (Or.inl (Prod.ext ha.symm hv.symm))
    · rw [if_neg ha] at h
      exact List.mem_cons_of_mem _ (ih h)

theorem splitWs_go_append (cs : List Char) :
    ∀ (cur rest : List Char), (∀ c ∈ cs, c ≠ ' ') →
      splitWs.go (cs ++ rest) cur = splitWs.go rest (cs.reverse ++ cur) := by
  induction cs with
  | nil => intro cur rest _; simp
  | cons c cs ih =>
    intro cur rest hns
    rw [List.cons_append, splitWs.go,
      if_neg (by simpa using hns c (List.mem_cons_self _ _)),
      ih (c :: cur) rest (fun d hd => hns d (List.mem_cons_of_mem _ hd))]
    simp

theorem splitWs_prepend (asn rest : String) (h : asnToken asn) :
    splitWs (asn ++ " " ++ rest) = asn :: splitWs rest := by
  obtain ⟨hne, hns⟩ := h
  have hdata : (asn ++ " " ++ rest).data = asn.data ++ (' ' :: rest.data)
      := by
    rw [String.data_append, String.data_append]
    simp [String.data]
  have hde : asn.data ≠ [] := by
    intro he
    exact hne (by cases asn; simp_all)
  rw [splitWs, hdata, splitWs_go_append asn.data [] (' ' :: rest.data) hns]
  rw [splitWs.go]
  rw [if_pos rfl, if_neg (by
    simp only [List.append_nil, List.isEmpty_eq_true]
    intro he
    exact hde (by simpa using congrArg List.reverse he))]
  simp only [List.append_nil, List.reverse_reverse]
  rfl

theorem hasLoopEGP_false_not_mem {asn p : String}
    (h : hasLoopEGP asn p = false) : asn ∉ (splitWs p).drop 1 := by
  intro hmem
  rw [hasLoopEGP] at h
  rw [show ((splitWs p).drop 1).contains asn =
    List.elem asn ((splitWs p).drop 1) from rfl] at h
  rw [List.elem_iff.mpr hmem] at h
  cases h

theorem hystScan_mem {bp bl : Nat} :
    ∀ {l : List Cand} {c : Cand}, hystScan bp bl l = some c → c ∈ l := by
  intro l
  induction l with
  | nil => intro c h; cases h
  | cons x xs ih =>
    intro c h
    rw [hystScan] at h
    by_cases h1 : x.prio ≠ bp
    · rw [if_pos h1] at h; cases h
    · rw [if_neg h1] at h
      by_cases h2 : (3 : Int) ≤ (bl : Int) - (x.plen : Int)
      · rw [if_pos h2] at h
        exact List.mem_cons.mpr (Or.inl (Option.some.inj h).symm)
      · rw [if_neg h2] at h
        exact List.mem_cons_of_mem _ (ih h)

/-- Unpacking of a successful `selectFromSorted` call: the chosen
candidate is the head or a member of the tail, the destination parses,
and the result state installs the chosen interface and path. -/
theorem selectFromSorted_ok (st : EGPState) (d : String) (b : Cand)
    (rest : List Cand) (st' : EGPState)
    (h : selectFromSorted st d (b :: rest) = .ok st') :
    ∃ chosen c, (chosen = b ∨ chosen ∈ rest) ∧ parseCidr d = some c ∧
      st' = { st with
              best := dinsert st.best d (chosen.iface, chosen.path),
              fib := st.fib.setEntry c [chosen.iface] } := by
  cases hscan : hystScan b.prio b.plen rest with
  | none =>
    refine ⟨b, ?_⟩
    rw [selectFromSorted, hscan] at h
    cases hp : parseCidr d with
    | none =>
      rw [show st.fib.setEntryS d [b.iface] =
        .error ("cannot parse network " ++ d) by
          rw [ForwardingTable.setEntryS, hp]] at h
      cases h
    | some c =>
      rw [show st.fib.setEntryS d [b.iface] = .ok (st.fib.setEntry c
        [b.iface]) by rw [ForwardingTable.setEntryS, hp]] at h
      exact ⟨c, Or.inl rfl, rfl, (Except.ok.inj h).symm⟩
  | some c0 =>
    refine ⟨c0, ?_⟩
    rw [selectFromSorted, hscan] at h
    cases hp : parseCidr d with
    | none =>
      rw [show st.fib.setEntryS d [c0.iface] =
        .error ("cannot parse network " ++ d) by
          rw [ForwardingTable.setEntryS, hp]] at h
      cases h
    | some c =>
      rw [show st.fib.setEntryS d [c0.iface] = .ok (st.fib.setEntry c
        [c0.iface]) by rw [ForwardingTable.setEntryS, hp]] at h
      exact ⟨c, Or.inr (hystScan_mem hscan), rfl, (Except.ok.inj h).symm⟩

/-- A successful `_select_best_route` preserves the ASN and the received
store unconditionally, and both path invariants when they held before. -/
theorem selectBestRoute_inv (st st' : EGPState) (d : String)
    (h : selectBestRoute st d = .ok st') :
    st'.asn = st.asn ∧ st'.received = st.received ∧
      (recvInv st → bestInv st → recvInv st' ∧ bestInv st') := by
  have hdropCase : ∀ st'', dropBestRoute st d = .ok st'' →
      st''.asn = st.asn ∧ st''.received = st.received ∧
        (recvInv st → bestInv st → recvInv st'' ∧ bestInv st'') := by
    intro st'' hdr
    rw [dropBestRoute] at hdr
    cases hp : st.fib.removeEntryS d with
    | error e => rw [hp] at hdr; cases hdr
    | ok ftab =>
      rw [hp] at hdr
      rw [← Except.ok.inj hdr]
      refine ⟨rfl, rfl, fun hrecv hbest => ⟨hrecv, ?_⟩⟩
      intro pr hpr
      exact hbest pr (mem_derase hpr)
  by_cases h1 : ((dlookup st.received d).getD []).isEmpty
  · have hsel : selectBestRoute st d = dropBestRoute st d := by
      rw [selectBestRoute, if_pos h1]
    exact hdropCase st' (hsel ▸ h)
  · by_cases h2 : (mkCandList st ((dlookup st.received d).getD [])).isEmpty
    · have hsel : selectBestRoute st d = dropBestRoute st d := by
        rw [selectBestRoute, if_neg h1, if_pos h2]
      exact hdropCase st' (hsel ▸ h)
    · obtain ⟨b, rest, hsorted⟩ :
          ∃ b rest, sortByB candLe
            (mkCandList st ((dlookup st.received d).getD [])) =
              b :: rest := by
        cases hco : mkCandList st ((dlookup st.received d).getD []) with
        | nil => rw [hco] at h2; simp at h2
        | cons x xs =>
          cases hso : sortByB candLe (x :: xs) with
          | nil => exact absurd hso (sortByB_ne_nil _ _ _)
          | cons b rest => exact ⟨b, rest, rfl⟩
      have hsel : selectBestRoute st d =
          selectFromSorted st d (b :: rest) := by
        rw [selectBestRoute, if_neg h1, if_neg h2, hsorted]
      obtain ⟨chosen, c, hmem, hp, hst'⟩ :=
        selectFromSorted_ok st d b rest st' (hsel ▸ h)
      have hchosen : chosen ∈
          mkCandList st ((dlookup st.received d).getD []) := by
        have : chosen ∈ sortByB candLe
            (mkCandList st ((dlookup st.received d).getD [])) := by
          rw [hsorted]
          rcases hmem with rfl | hmem
          · exact List.mem_cons_self _ _
          · exact List.mem_cons_of_mem _ hmem
        exact (mem_sortByB candLe).mp this
      obtain ⟨inner0, hlk⟩ : ∃ inner0,
          dlookup st.received d = some inner0 := by
        cases hl : dlookup st.received d with
        | none => rw [hl] at h1; simp at h1
        | some inner0 => exact ⟨inner0, rfl⟩
      rw [hlk] at hchosen
      rw [mkCandList_eq] at hchosen
      obtain ⟨pr0, hpr0f, hpr0e⟩ := List.mem_map.mp hchosen
      have hpr0 : pr0 ∈ inner0 := List.mem_of_mem_filter hpr0f
      have hcond0 : specCandPred st pr0 = true := List.of_mem_filter hpr0f
      have hcond : hasLoopEGP st.asn pr0.2 = false ∧
          ((dlookup st.linkStates pr0.1).getD "up") ≠ "down" :=
        of_decide_eq_true hcond0
      have hpath : chosen.path = pr0.2 := by rw [← hpr0e]; rfl
      rw [hst']
      refine ⟨rfl, rfl, fun hrecv hbest => ⟨hrecv, ?_⟩⟩
      have hhead : (splitWs pr0.2).head? = some st.asn :=
        hrecv (d, inner0) (dlookup_mem hlk) pr0 hpr0
      intro pr hpr
      rcases mem_dinsert hpr with hold | hnew
      · exact hbest pr hold
      · rw [hnew]
        refine ⟨?_, ?_⟩
        · rw [show ((d, (chosen.iface, chosen.path)) :
            String × (String × String)).2.2 = chosen.path from rfl, hpath]
          exact hhead
        · rw [show ((d, (chosen.iface, chosen.path)) :
            String × (String × String)).2.2 = chosen.path from rfl, hpath]
          exact hasLoopEGP_false_not_mem hcond.1

/-- Storing a received-and-prepended route keeps the received-store
invariant. -/
theorem recvInv_update_store (st : EGPState) (dest iface newPath : String)
    (hrecv : recvInv st) (hnew : (splitWs newPath).head? = some st.asn) :
    recvInv { st with
      received := dinsert st.received dest
        (dinsert ((dlookup st.received dest).getD []) iface newPath) } := by
  intro pr hpr
  rcases mem_dinsert hpr with hold | hnewpr
  · exact fun q hq => hrecv pr hold q hq
  · rw [hnewpr]
    intro q hq
    rcases mem_dinsert hq with hq1 | hq2
    · cases hlk : dlookup st.received dest with
      | none => rw [hlk] at hq1; cases hq1
      | some inner0 =>
        rw [hlk] at hq1
        exact hrecv (dest, inner0) (dlookup_mem hlk) q hq1
    · rw [hq2]
      exact hnew

/-- The `EGP-update` line handler preserves the ASN and the path
invariants. -/
theorem egpUpdateLine_inv (iface : String) (st : EGPState)
    (processed : List String) (od oa : Option String) (st' : EGPState)
    (processed' : List String)
    (h : egpUpdateLine iface st processed od oa = .ok (st', processed')) :
    st'.asn = st.asn ∧
      (asnToken st.asn → recvInv st → bestInv st →
        recvInv st' ∧ bestInv st') := by
  have hid : ∀ (hh : (Except.ok (st, processed) :
      Except String (EGPState × List String)) = .ok (st', processed')),
      st'.asn = st.asn ∧
        (asnToken st.asn → recvInv st → bestInv st →
          recvInv st' ∧ bestInv st') := by
    intro hh
    have := (Prod.mk.injEq _ _ _ _ ▸ Except.ok.inj hh).1
    rw [← this]
    exact ⟨rfl, fun _ hr hb => ⟨hr, hb⟩⟩
  cases od with
  | none => exact hid h
  | some dest =>
    cases oa with
    | none => exact hid h
    | some asPath =>
      simp only [egpUpdateLine] at h
      by_cases hdup : dest ∈ processed
      · rw [if_pos hdup] at h
        exact hid h
      · rw [if_neg hdup] at h
        cases hsel : selectBestRoute
            { st with
              received := dinsert st.received dest
                (dinsert ((dlookup st.received dest).getD []) iface
                  (st.asn ++ " " ++ asPath)) } dest with
        | error e =>
          rw [hsel] at h
          cases h
        | ok st2 =>
          rw [hsel, exceptBind_ok] at h
          obtain ⟨hst', _⟩ := Prod.mk.injEq _ _ _ _ ▸ Except.ok.inj h
          obtain ⟨hasn2, hrcv2, himp2⟩ := selectBestRoute_inv _ st2 dest hsel
          rw [← hst']
          refine ⟨hasn2, fun ht hr hb => ?_⟩
          have hnew : (splitWs (st.asn ++ " " ++ asPath)).head? =
              some st.asn := by
            rw [splitWs_prepend _ _ ht]
            rfl
          have hrmid := recvInv_update_store st dest iface
            (st.asn ++ " " ++ asPath) hr hnew
          obtain ⟨hr2, hb2⟩ := himp2 hrmid hb
          exact ⟨fun pr hpr q hq => hr2 pr hpr q hq,
                 fun pr hpr => hb2 pr hpr⟩

/-- The withdrawal route removal preserves the ASN, the best-route store
and the received-store invariant. -/
theorem removeReceived_proj (st : EGPState) (dest iface : String) :
    (removeReceived st dest iface).asn = st.asn ∧
    (removeReceived st dest iface).best = st.best ∧
    (recvInv st → recvInv (removeReceived st dest iface)) := by
  rw [removeReceived]
  cases hlk : dlookup st.received dest with
  | none => exact ⟨rfl, rfl, fun hr => hr⟩
  | some inner =>
    simp only [removeReceivedCore]
    by_cases hin : (dlookup inner iface).isSome
    · rw [if_pos hin]
      by_cases hie : (derase inner iface).isEmpty
      · rw [if_pos hie]
        refine ⟨rfl, rfl, fun hr pr hpr q hq => hr pr (mem_derase hpr) q hq⟩
      · rw [if_neg hie]
        refine ⟨rfl, rfl, fun hr pr hpr q hq => ?_⟩
        rcases mem_dinsert hpr with hold | hnew
        · exact hr pr hold q hq
        · rw [hnew] at hq
          exact hr (dest, inner) (dlookup_mem hlk) q (mem_derase hq)
    · rw [if_neg hin]
      exact ⟨rfl, rfl, fun hr => hr⟩

/-- The `EGP-withdrawal` line handler preserves the ASN and the path
invariants. -/
theorem egpWithdrawLine_inv (iface : String) (st : EGPState)
    (processed : List String) (od : Option String) (st' : EGPState)
    (processed' : List String)
    (h : egpWithdrawLine iface st processed od = .ok (st', processed')) :
    st'.asn = st.asn ∧
      (asnToken st.asn → recvInv st → bestInv st →
        recvInv st' ∧ bestInv st') := by
  have hid : ∀ (hh : (Except.ok (st, processed) :
      Except String (EGPState × List String)) = .ok (st', processed')),
      st'.asn = st.asn ∧
        (asnToken st.asn → recvInv st → bestInv st →
          recvInv st' ∧ bestInv st') := by
    intro hh
    have := (Prod.mk.injEq _ _ _ _ ▸ Except.ok.inj hh).1
    rw [← this]
    exact ⟨rfl, fun _ hr hb => ⟨hr, hb⟩⟩
  cases od with
  | none => exact hid h
  | some dest =>
    simp only [egpWithdrawLine] at h
    by_cases hdup : dest ∈ processed
    · rw [if_pos hdup] at h
      exact hid h
    · rw [if_neg hdup] at h
      obtain ⟨hasnR, hbestR, hrecvR⟩ := removeReceived_proj st dest iface
      cases hsel : selectBestRoute (removeReceived st dest iface) dest with
      | error e =>
        rw [hsel] at h
        cases h
      | ok st2 =>
        rw [hsel, exceptBind_ok] at h
        obtain ⟨hst', _⟩ := Prod.mk.injEq _ _ _ _ ▸ Except.ok.inj h
        obtain ⟨hasn2, hrcv2, himp2⟩ := selectBestRoute_inv _ st2 dest hsel
        rw [← hst']
        refine ⟨hasn2.trans hasnR, fun ht hr hb => ?_⟩
        have hbmid : bestInv (removeReceived st dest iface) := by
          intro pr hpr
          rw [hbestR] at hpr
          rw [hasnR]
          exact hb pr hpr
        obtain ⟨hr2, hb2⟩ := himp2 (hrecvR hr) hbmid
        exact ⟨fun pr hpr q hq => hr2 pr hpr q hq,
               fun pr hpr => hb2 pr hpr⟩

theorem okPair_eq {α β : Type} {a a' : α} {b b' : β}
    (h : (Except.ok (a, b) : Except String (α × β)) = .ok (a', b')) :
    a' = a ∧ b' = b := by
  obtain ⟨h1, h2⟩ := Prod.mk.injEq _ _ _ _ ▸ Except.ok.inj h
  exact ⟨h1.symm, h2.symm⟩

theorem except_toOption_some {α : Type} {x : Except String α} {v : α}
    (h : x.toOption = some v) : x = .ok v := by
  cases x with
  | error e => cases h
  | ok a => rw [Option.some.inj h]

/-- One payload line preserves the ASN and the path invariants. -/
theorem egpProcessLine_inv (iface : String) (st : EGPState)
    (processed : List String) (data : String) (st' : EGPState)
    (processed' : List String)
    (h : egpProcessLine iface st processed data = .ok (st', processed')) :
    st'.asn = st.asn ∧
      (asnToken st.asn → recvInv st → bestInv st →
        recvInv st' ∧ bestInv st') := by
  rw [egpProcessLine] at h
  by_cases h1 : pyStartsWith data "speaker"
  · rw [if_pos h1] at h
    rw [(okPair_eq h).1]
    exact ⟨rfl, fun _ hr hb => ⟨hr, hb⟩⟩
  · rw [if_neg h1] at h
    by_cases h2 : pyStartsWith data "EGP-update"
    · rw [if_pos h2] at h
      exact egpUpdateLine_inv iface st processed _ _ st' processed' h
    · rw [if_neg h2] at h
      by_cases h3 : pyStartsWith data "EGP-withdrawal"
      · rw [if_pos h3] at h
        exact egpWithdrawLine_inv iface st processed _ st' processed' h
      · rw [if_neg h3] at h
        rw [(okPair_eq h).1]
        exact ⟨rfl, fun _ hr hb => ⟨hr, hb⟩⟩

/-- The payload fold preserves the ASN and the path invariants. -/
theorem egpProcessFold_inv (iface : String) :
    ∀ (pl : List String) (st : EGPState) (processed : List String)
      (st' : EGPState),
      egpProcessFold iface st processed pl = .ok st' →
      st'.asn = st.asn ∧
        (asnToken st.asn → recvInv st → bestInv st →
          recvInv st' ∧ bestInv st') := by
  intro pl
  induction pl with
  | nil =>
    intro st processed st' h
    rw [← Except.ok.inj h]
    exact ⟨rfl, fun _ hr hb => ⟨hr, hb⟩⟩
  | cons data rest ih =>
    intro st processed st' h
    rw [egpProcessFold] at h
    cases hline : egpProcessLine iface st processed data with
    | error e => rw [hline] at h; cases h
    | ok p =>
      obtain ⟨stm, prm⟩ := p
      rw [hline, exceptBind_ok] at h
      obtain ⟨hasn1, himp1⟩ :=
        egpProcessLine_inv iface st processed data stm prm hline
      obtain ⟨hasn2, himp2⟩ := ih stm prm st' h
      refine ⟨hasn2.trans hasn1, fun ht hr hb => ?_⟩
      obtain ⟨hr1, hb1⟩ := himp1 ht hr hb
      exact himp2 (by rw [hasn1]; exact ht) hr1 hb1

/-- `processRoutingPacket` preserves the ASN and the path invariants. -/
theorem processRoutingPacketEGP_inv (st : EGPState) (pl : List String)
    (iface : String) (st' : EGPState)
    (h : processRoutingPacketEGP st pl iface = .ok st') :
    st'.asn = st.asn ∧
      (asnToken st.asn → recvInv st → bestInv st →
        recvInv st' ∧ bestInv st') :=
  egpProcessFold_inv iface pl st [] st' h

/-- The re-selection loop preserves the ASN, and the invariants when they
held. -/
theorem reselectAll_inv :
    ∀ (dests : List String) (st st' : EGPState),
      reselectAll st dests = .ok st' →
      st'.asn = st.asn ∧
        (recvInv st → bestInv st → recvInv st' ∧ bestInv st') := by
  intro dests
  induction dests with
  | nil =>
    intro st st' h
    rw [← Except.ok.inj h]
    exact ⟨rfl, fun hr hb => ⟨hr, hb⟩⟩
  | cons d ds ih =>
    intro st st' h
    rw [reselectAll] at h
    cases hsel : selectBestRoute st d with
    | error e => rw [hsel] at h; cases h
    | ok st2 =>
      rw [hsel, exceptBind_ok] at h
      obtain ⟨hasn1, _, himp1⟩ := selectBestRoute_inv st st2 d hsel
      obtain ⟨hasn2, himp2⟩ := ih _ st' h
      refine ⟨hasn2.trans hasn1, fun hr hb => ?_⟩
      obtain ⟨hr1, hb1⟩ := himp1 hr hb
      exact himp2 hr1 hb1

/-- `_handle_link_down` preserves the ASN, and the invariants when they
held. -/
theorem handleLinkDown_inv (st : EGPState) (iface : String)
    (st' : EGPState) (h : handleLinkDown st iface = .ok st') :
    st'.asn = st.asn ∧
      (recvInv st → bestInv st → recvInv st' ∧ bestInv st') := by
  rw [handleLinkDown] at h
  obtain ⟨hasn, himp⟩ := reselectAll_inv _ _ st' h
  refine ⟨hasn, fun hr hb => ?_⟩
  refine himp ?_ hb
  intro pr hpr q hq
  obtain ⟨pr0, hpr0, hf⟩ := List.mem_filterMap.mp hpr
  by_cases hin : (dlookup pr0.2 iface).isSome
  · rw [if_pos hin] at hf
    by_cases hie : (derase pr0.2 iface).isEmpty
    · rw [if_pos hie] at hf; cases hf
    · rw [if_neg hie] at hf
      rw [← Option.some.inj hf] at hq
      exact hr pr0 hpr0 q (mem_derase hq)
  · rw [if_neg hin] at hf
    rw [← Option.some.inj hf] at hq
    exact hr pr0 hpr0 q hq

/-- The per-interface update loop preserves the ASN, and the invariants
when they held. -/
theorem egpUpdateFold_inv :
    ∀ (ifs : List (String × String)) (st st' : EGPState),
      egpUpdateFold st ifs = .ok st' →
      st'.asn = st.asn ∧
        (recvInv st → bestInv st → recvInv st' ∧ bestInv st') := by
  intro ifs
  induction ifs with
  | nil =>
    intro st st' h
    rw [← Except.ok.inj h]
    exact ⟨rfl, fun hr hb => ⟨hr, hb⟩⟩
  | cons p rest ih =>
    intro st st' h
    obtain ⟨i, s⟩ := p
    rw [egpUpdateFold] at h
    cases hlk : dlookup st.linkStates i with
    | none =>
      rw [hlk] at h
      obtain ⟨hasn, himp⟩ := ih _ st' h
      exact ⟨hasn, himp⟩
    | some oldState =>
      rw [hlk] at h
      have h' : (if oldState ≠ s then
          (if s = "down" then do
              let st2 ← handleLinkDown
                { st with linkStates := dinsert st.linkStates i s } i
              egpUpdateFold st2 rest
            else egpUpdateFold (handleLinkUp
              { st with linkStates := dinsert st.linkStates i s } i) rest)
        else egpUpdateFold st rest) = .ok st' := h
      by_cases hne : oldState ≠ s
      · rw [if_pos hne] at h'
        by_cases hdown : s = "down"
        · rw [if_pos hdown] at h'
          cases hld : handleLinkDown
              { st with linkStates := dinsert st.linkStates i s } i with
          | error e => rw [hld] at h'; cases h'
          | ok st2 =>
            rw [hld, exceptBind_ok] at h'
            obtain ⟨hasn1, himp1⟩ := handleLinkDown_inv _ i st2 hld
            obtain ⟨hasn2, himp2⟩ := ih st2 st' h'
            refine ⟨hasn2.trans hasn1, fun hr hb => ?_⟩
            obtain ⟨hr1, hb1⟩ := himp1 hr hb
            exact himp2 hr1 hb1
        · rw [if_neg hdown] at h'
          obtain ⟨hasn2, himp2⟩ := ih _ st' h'
          exact ⟨hasn2, fun hr hb => himp2 hr hb⟩
      · rw [if_neg hne] at h'
        exact ih st st' h'

/-- `EGP.update` preserves the ASN and the path invariants. -/
theorem egpUpdate_inv (st : EGPState) (ifs : List (String × String))
    (st' : EGPState) (h : egpUpdate st ifs = .ok st') :
    st'.asn = st.asn ∧
      (recvInv st → bestInv st → recvInv st' ∧ bestInv st') := by
  rw [egpUpdate] at h
  cases hf : egpUpdateFold st ifs with
  | error e => rw [hf] at h; cases h
  | ok st2 =>
    rw [hf, exceptBind_ok] at h
    obtain ⟨hasn, himp⟩ := egpUpdateFold_inv ifs st st2 hf
    rw [← Except.ok.inj h]
    exact ⟨hasn, fun hr hb => himp hr hb⟩

/-- `generateRoutingPacket` never touches the ASN, the received store or
the best-route store. -/
theorem egpGenerate_proj (st : EGPState) (iface : String) :
    ((egpGenerate st iface).2).asn = st.asn ∧
    ((egpGenerate st iface).2).received = st.received ∧
    ((egpGenerate st iface).2).best = st.best := by
  rw [egpGenerate]
  by_cases h1 : (dlookup st.neighbours iface).isNone
  · rw [if_pos h1]
    exact ⟨rfl, rfl, rfl⟩
  · rw [if_neg h1]
    by_cases h2 : ((dlookup st.linkStates iface).getD "up") = "down"
    · rw [if_pos h2]
      exact ⟨rfl, rfl, rfl⟩
    · rw [if_neg h2]
      set st1 : EGPState :=
        { st with
          advertised :=
            if (dlookup st.advertised iface).isNone then
              dinsert st.advertised iface []
            else st.advertised } with hst1
      by_cases h3 : (egpToAnnounce st1 iface).isEmpty = true ∧
          (egpToWithdraw st1 iface).isEmpty = true
      · rw [if_pos h3]
        exact ⟨rfl, rfl, rfl⟩
      · rw [if_neg h3]
        exact ⟨rfl, rfl, rfl⟩

/-- Every reachable EGP state with a token-shaped ASN satisfies both path
invariants. -/
theorem egpReach_inv (st : EGPState) (h : EGPReach st) :
    asnToken st.asn → recvInv st ∧ bestInv st := by
  induction h with
  | init asn ip nb rel =>
    intro _
    exact ⟨fun pr hpr => absurd hpr (List.not_mem_nil _),
           fun pr hpr => absurd hpr (List.not_mem_nil _)⟩
  | proc st st' pl iface hre hok ih =>
    obtain ⟨hasn, himp⟩ := processRoutingPacketEGP_inv st pl iface st' hok
    intro ht'
    have ht : asnToken st.asn := by rw [← hasn]; exact ht'
    obtain ⟨hr, hb⟩ := ih ht
    exact himp ht hr hb
  | upd st st' ifs hre hok ih =>
    obtain ⟨hasn, himp⟩ := egpUpdate_inv st ifs st' hok
    intro ht'
    have ht : asnToken st.asn := by rw [← hasn]; exact ht'
    obtain ⟨hr, hb⟩ := ih ht
    exact himp hr hb
  | gen st iface hre ih =>
    obtain ⟨hasn, hrecv, hbest⟩ := egpGenerate_proj st iface
    intro ht'
    have ht : asnToken st.asn := by rw [← hasn]; exact ht'
    obtain ⟨hr, hb⟩ := ih ht
    constructor
    · intro pr hpr q hq
      rw [hrecv] at hpr
      rw [hasn]
      exact hr pr hpr q hq
    · intro pr hpr
      rw [hbest] at hpr
      rw [hasn]
      exact hb pr hpr

/-! ## Claim theorems -/

/-- C1: whenever best-route selection runs for a destination `P` (that
parses as a CIDR, as every prefix in a run does), the candidates are
exactly the `(iface, path)` pairs of `received[P]` passing the loop filter
and the link-state filter; with no candidate, `P` is removed from the
best-route store and the FIB; otherwise, with the candidates sorted by
`(−relationPriority, iface)` (priorities customer 3 > peer 2 > provider 1,
anything else 0), the selection takes the head unless a first subsequent
candidate of the same priority has a path at least 3 tokens shorter, and
installs the selected interface in the FIB for `P`. -/
theorem c1_best_route_selection (st : EGPState) (dest : String) (c : Cidr)
    (hc : parseCidr dest = some c) :
    ∃ st', selectBestRoute st dest = .ok st' ∧
      ((((dlookup st.received dest).getD []).filter (specCandPred st) = []) →
        dlookup st'.best dest = none ∧ dlookup st'.fib.table c = none) ∧
      (∀ b rest,
        sortByB candLe
          ((((dlookup st.received dest).getD []).filter
            (specCandPred st)).map (mkCandOf st)) = b :: rest →
        dlookup st'.best dest =
          some ((specChoose b rest).iface, (specChoose b rest).path) ∧
        dlookup st'.fib.table c = some [(specChoose b rest).iface]) ∧
      relationPriority "customer" = 3 ∧ relationPriority "peer" = 2 ∧
      relationPriority "provider" = 1 ∧
      (∀ r, r ≠ "customer" → r ≠ "peer" → r ≠ "provider" →
        relationPriority r = 0) := by
  have hprio : relationPriority "customer" = 3 ∧ relationPriority "peer" = 2 ∧
      relationPriority "provider" = 1 ∧
      (∀ r, r ≠ "customer" → r ≠ "peer" → r ≠ "provider" →
        relationPriority r = 0) := by
    refine ⟨rfl, rfl, rfl, ?_⟩
    intro r h1 h2 h3
    simp [relationPriority, h1, h2, h3]
  have hdrop : dropBestRoute st dest =
      .ok { st with
            best := derase st.best dest,
            fib := st.fib.removeEntry c } := by
    rw [dropBestRoute, ForwardingTable.removeEntryS, hc]
    rfl
  by_cases h1 : ((dlookup st.received dest).getD []).isEmpty
  · have hsel : selectBestRoute st dest =
        .ok { st with
              best := derase st.best dest,
              fib := st.fib.removeEntry c } := by
      rw [selectBestRoute, if_pos h1, hdrop]
    refine ⟨_, hsel, ?_, ?_, hprio⟩
    · intro _
      exact ⟨dlookup_derase_self _ _, dlookup_derase_self _ _⟩
    · intro b rest hbr
      rw [List.isEmpty_iff.mp h1] at hbr
      simp [sortByB] at hbr
  · by_cases h2 : (mkCandList st ((dlookup st.received dest).getD [])).isEmpty
    · have hsel : selectBestRoute st dest =
          .ok { st with
                best := derase st.best dest,
                fib := st.fib.removeEntry c } := by
        rw [selectBestRoute, if_neg h1, if_pos h2, hdrop]
      refine ⟨_, hsel, ?_, ?_, hprio⟩
      · intro _
        exact ⟨dlookup_derase_self _ _, dlookup_derase_self _ _⟩
      · intro b rest hbr
        rw [← mkCandList_eq, List.isEmpty_iff.mp h2] at hbr
        simp [sortByB] at hbr
    · obtain ⟨x, xs, hcand⟩ :
          ∃ x xs, mkCandList st ((dlookup st.received dest).getD []) =
            x :: xs := by
        cases hco : mkCandList st ((dlookup st.received dest).getD []) with
        | nil => rw [hco] at h2; simp at h2
        | cons x xs => exact ⟨x, xs, rfl⟩
      obtain ⟨b, rest, hsorted⟩ :
          ∃ b rest, sortByB candLe
            (mkCandList st ((dlookup st.received dest).getD [])) =
              b :: rest := by
        cases hso : sortByB candLe
            (mkCandList st ((dlookup st.received dest).getD [])) with
        | nil => rw [hcand] at hso; exact absurd hso (sortByB_ne_nil _ _ _)
        | cons b rest => exact ⟨b, rest, rfl⟩
      have hscan : hystScan b.prio b.plen rest = rest.find? (specSwitchPred b)
          := by
        have hpw := sortByB_pairwise candLe candLe_total candLe_trans
          (mkCandList st ((dlookup st.received dest).getD []))
        rw [hsorted] at hpw
        rcases List.pairwise_cons.mp hpw with ⟨hb, hrest⟩
        exact hystScan_eq_find b rest (fun d hd => candLe_prio (hb d hd))
          (hrest.imp (fun h => candLe_prio h))
      have hsel : selectBestRoute st dest =
          .ok { st with
                best := dinsert st.best dest
                  ((specChoose b rest).iface, (specChoose b rest).path),
                fib := st.fib.setEntry c [(specChoose b rest).iface] } := by
        have hsorted' : selectFromSorted st dest (b :: rest) =
            .ok { st with
                  best := dinsert st.best dest
                    ((specChoose b rest).iface, (specChoose b rest).path),
                  fib := st.fib.setEntry c [(specChoose b rest).iface] } := by
          simp only [selectFromSorted, hscan]
          cases hf : rest.find? (specSwitchPred b) <;>
            simp only [specChoose, hf, ForwardingTable.setEntryS, hc] <;> rfl
        rw [selectBestRoute, if_neg h1, if_neg h2, hsorted, hsorted']
      refine ⟨_, hsel, ?_, ?_, hprio⟩
      · intro hfil
        rw [mkCandList_eq, hfil] at hcand
        simp at hcand
      · intro b' rest' hbr'
        rw [← mkCandList_eq, hsorted] at hbr'
        obtain ⟨hb, hr⟩ := List.cons.injEq _ _ _ _ ▸ hbr'
        constructor
        · rw [show ({ st with
              best := dinsert st.best dest
                ((specChoose b rest).iface, (specChoose b rest).path),
              fib := st.fib.setEntry c
                [(specChoose b rest).iface] } : EGPState).best =
              dinsert st.best dest
                ((specChoose b rest).iface, (specChoose b rest).path) from
              rfl]
          rw [dlookup_dinsert, if_pos rfl, ← hb, ← hr]
        · rw [show ({ st with
              best := dinsert st.best dest
                ((specChoose b rest).iface, (specChoose b rest).path),
              fib := st.fib.setEntry c
                [(specChoose b rest).iface] } : EGPState).fib =
              st.fib.setEntry c [(specChoose b rest).iface] from rfl]
          rw [show (st.fib.setEntry c [(specChoose b rest).iface]).table =
              dinsert st.fib.table c [(specChoose b rest).iface] from rfl]
          rw [dlookup_dinsert, if_pos rfl, ← hb, ← hr]

/-- C1 witness: on the fixture daemon, selection for `10.0.0.0/24` runs
and — both candidates being customers with `i0` first in interface order
but `i1` 3 tokens shorter — switches to `i1`. -/
theorem c1_witness :
    ∃ st', selectBestRoute egpStW "10.0.0.0/24" = .ok st' ∧
      dlookup st'.best "10.0.0.0/24" = some ("i1", "1 9") ∧
      dlookup st'.fib.table ⟨167772160, 24⟩ = some ["i1"] := by
  obtain ⟨st', hok, _, hsort, _⟩ :=
    c1_best_route_selection egpStW "10.0.0.0/24" ⟨167772160, 24⟩ (by decide)
  have hres := hsort ⟨3, "i0", 5, "1 2 3 4 5"⟩ [⟨3, "i1", 2, "1 9"⟩]
    (by decide)
  exact ⟨st', hok, hres.1.trans (by decide), hres.2.trans (by decide)⟩

/-- C3 (amended): `movePackets` transfers, in FIFO order, every packet of
each outbound queue to the opposite inbound queue exactly when the link is
up at move time; while the link is down the state is unchanged — packets
stay in the outbound queue and are delivered by a later `movePackets` once
the link is up again (they are NOT discarded). -/
theorem c3_move_packets (l : Link) :
    (l.up = true →
      l.movePackets.in1 = l.in1 ++ l.out0.map (traceHop l.router0 l.router1) ∧
      l.movePackets.in0 = l.in0 ++ l.out1.map (traceHop l.router1 l.router0) ∧
      l.movePackets.out0 = [] ∧ l.movePackets.out1 = []) ∧
    (l.up = false →
      l.movePackets = l ∧
      ((l.setState true).movePackets).in1 =
        l.in1 ++ l.out0.map (traceHop l.router0 l.router1)) := by
  constructor
  · intro h
    rw [Link.movePackets, if_pos h]
    exact ⟨rfl, rfl, rfl, rfl⟩
  · intro h
    constructor
    · rw [Link.movePackets, if_neg (by rw [h]; exact Bool.false_ne_true)]
    · rfl

/-- C3 witness: the fixture link is down, so `movePackets` leaves it
unchanged; after the link comes up, the waiting packet is delivered. -/
theorem c3_witness :
    lnkC3.movePackets = lnkC3 ∧
    ((lnkC3.setState true).movePackets).in1 =
      [{ pkC3 with payload := ["A->B"] }] := by
  have h := (c3_move_packets lnkC3).2 rfl
  exact ⟨h.1, h.2.trans (by decide)⟩

/-- C3 counterexample: the claim says a packet whose link is down at move
time is silently discarded and never reaches any inbound queue; on the
fixture, the packet is retained in the outbound queue across the call and
reaches the opposite inbound queue as soon as a later `movePackets` runs
with the link up. -/
theorem c3_counterexample :
    lnkC3.up = false ∧
    lnkC3.movePackets.out0 = [pkC3] ∧
    ((lnkC3.movePackets.setState true).movePackets).in1 =
      [{ pkC3 with payload := ["A->B"] }] := by decide

/-- C4: the checker's loop test, as coded, joins the collapsed token list
with no separator before re-splitting, so it can never see more than one
token and never reports a loop: on the path `"3 2 3"` (ASN 3 repeated
after collapsing consecutive duplicates, a loop per the spec and per the
checker's own fine message) `_has_loop` returns false, so no `(r, d)` is
ever fined with the "AS loop" reason. -/
theorem c4_checker_loop_code_bug :
    specHasLoop "3 2 3" = true ∧ checkerHasLoop "3 2 3" = false ∧
    removeConsecutiveDuplicates (splitWs "3 2 3") = "323" := by decide

/-- C7 (amended): `setEntry` then `removeEntry` for the same CIDR leaves
`getEntry` returning `[]`, but increases the write counter by exactly 1:
only `setEntry` counts a write, `removeEntry` does not touch the
counter. -/
theorem c7_set_then_remove (ft : ForwardingTable) (s : String) (c : Cidr)
    (out : List String) (hc : parseCidr s = some c) :
    ∃ ft1 ft2, ft.setEntryS s out = .ok ft1 ∧
      ft1.removeEntryS s = .ok ft2 ∧
      ft2.getEntry c = [] ∧
      ft2.getTotalWrites = ft.getTotalWrites + 1 := by
  refine ⟨ft.setEntry c out, (ft.setEntry c out).removeEntry c, ?_, ?_, ?_,
    rfl⟩
  · rw [ForwardingTable.setEntryS, hc]
  · rw [ForwardingTable.removeEntryS, hc]
  · simp [ForwardingTable.getEntry, ForwardingTable.removeEntry,
      dlookup_derase_self]

/-- C7 witness: concrete set-then-remove on the empty table for
`10.0.0.0/24`. -/
theorem c7_witness :
    ∃ ft1 ft2,
      ForwardingTable.empty.setEntryS "10.0.0.0/24" ["i0"] = .ok ft1 ∧
      ft1.removeEntryS "10.0.0.0/24" = .ok ft2 ∧
      ft2.getEntry ⟨167772160, 24⟩ = [] ∧
      ft2.getTotalWrites = ForwardingTable.empty.getTotalWrites + 1 :=
  c7_set_then_remove ForwardingTable.empty "10.0.0.0/24" ⟨167772160, 24⟩
    ["i0"] (by decide)

/-- C7 counterexample: the claim's "+2" fails — after set-then-remove on
the empty table the write counter is 1, not 2. -/
theorem c7_counterexample :
    (ForwardingTable.empty.setEntryS "10.0.0.0/24" ["i0"]).toOption.map
        (fun ft1 => (ft1.removeEntry ⟨167772160, 24⟩).getTotalWrites) =
      some 1 ∧
    ForwardingTable.empty.getTotalWrites + 2 = 2 := by decide

/-- The per-interface loop of `EGP.update` on interfaces not yet in the
link-state map: each reported state is recorded and nothing else runs. -/
theorem egpUpdateFold_fresh (st : EGPState) :
    ∀ (ifs pre : List (String × String)),
      (∀ p ∈ ifs, dlookup pre p.1 = none) →
      (ifs.map Prod.fst).Nodup →
      egpUpdateFold { st with linkStates := pre } ifs =
        .ok { st with linkStates := pre ++ ifs } := by
  intro ifs
  induction ifs with
  | nil => intro pre _ _; simp [egpUpdateFold]
  | cons p rest ih =>
    intro pre hnone hnodup
    obtain ⟨i, s⟩ := p
    have hstep : egpUpdateFold { st with linkStates := pre } ((i, s) :: rest)
        = egpUpdateFold { st with linkStates := dinsert pre i s } rest := by
      rw [egpUpdateFold]
      rw [show dlookup ({ st with linkStates := pre } : EGPState).linkStates i
          = none from hnone (i, s) (List.mem_cons_self _ _)]
    have hnodup' : (i :: rest.map Prod.fst).Nodup := by simpa using hnodup
    rcases List.nodup_cons.mp hnodup' with ⟨hni, hnd⟩
    have hins : dinsert pre i s = pre ++ [(i, s)] :=
      dinsert_of_lookup_none pre i s (hnone (i, s) (List.mem_cons_self _ _))
    have hpre' : ∀ q ∈ rest, dlookup (pre ++ [(i, s)]) q.1 = none := by
      intro q hq
      rw [dlookup_append, hnone q (List.mem_cons_of_mem _ hq)]
      have hqi : ¬ (i = q.1) := by
        intro e
        exact hni (e ▸ List.mem_map_of_mem Prod.fst hq)
      rw [show dlookup [(i, s)] q.1 = (none : Option String) by
        rw [dlookup_cons, if_neg hqi]; rfl]
      rfl
    rw [hstep, hins, ih (pre ++ [(i, s)]) hpre' hnd, List.append_assoc]
    rfl

/-- The per-interface loop of `EGP.update` when every reported state
matches the remembered one: no reaction runs and the state is untouched. -/
theorem egpUpdateFold_same (st : EGPState) :
    ∀ ifs : List (String × String),
      (∀ p ∈ ifs, dlookup st.linkStates p.1 = some p.2) →
      egpUpdateFold st ifs = .ok st := by
  intro ifs
  induction ifs with
  | nil => intro _; rfl
  | cons p rest ih =>
    intro hsame
    obtain ⟨i, s⟩ := p
    have hstep : egpUpdateFold st ((i, s) :: rest) =
        egpUpdateFold st rest := by
      rw [egpUpdateFold, hsame (i, s) (List.mem_cons_self _ _)]
      exact if_neg (fun hne => hne rfl)
    rw [hstep]
    exact ih (fun q hq => hsame q (List.mem_cons_of_mem _ hq))

/-- C10: the first `update` call only records the reported interface
states as the baseline — received routes, best routes, the FIB, the
advertised store and the changed set are untouched, even for interfaces
reported down — and an update whose reported states all equal the
remembered ones runs no link-down or link-up reaction at all. -/
theorem c10_first_update_baseline (st : EGPState)
    (ifs : List (String × String)) :
    (st.linkStates = [] → (ifs.map Prod.fst).Nodup →
      egpUpdate st ifs =
        .ok { st with linkStates := ifs, firstUpdate := false }) ∧
    ((∀ p ∈ ifs, dlookup st.linkStates p.1 = some p.2) →
      egpUpdate st ifs = .ok { st with firstUpdate := false }) := by
  constructor
  · intro hempty hnodup
    have hst : st = { st with linkStates := ([] : List (String × String)) }
        := by
      cases st
      simp_all
    rw [egpUpdate, hst,
      egpUpdateFold_fresh st ifs [] (fun p _ => rfl) hnodup]
    rfl
  · intro hsame
    rw [egpUpdate, egpUpdateFold_same st ifs hsame]
    rfl

/-- C10 witness: the fixture daemon has never seen an interface; an update
reporting `i0` down and `i1` up records the baseline and leaves the
received routes, best routes, FIB and changed set untouched, and a second
identical update is a no-op apart from the flag. -/
theorem c10_witness :
    egpUpdate egpStW [("i0", "down"), ("i1", "up")] =
      .ok { egpStW with
            linkStates := [("i0", "down"), ("i1", "up")],
            firstUpdate := false } :=
  (c10_first_update_baseline egpStW [("i0", "down"), ("i1", "up")]).1
    rfl (by decide)

/-- The one-entry step of the `should_advertise` fold. -/
theorem shouldAdv_step_mem (st : EGPState) (iface : String)
    (acc : List (String × String)) (e : String × (String × String))
    {x : String × String}
    (h : x ∈ (if e.2.1 = iface then acc
      else if shouldExport (relAt st e.2.1) (relAt st iface) then
        dinsert acc e.1 e.2.2
      else acc)) :
    x ∈ acc ∨
      (e.2.1 ≠ iface ∧
       shouldExport (relAt st e.2.1) (relAt st iface) = true ∧
       x = (e.1, e.2.2)) := by
  by_cases h1 : e.2.1 = iface
  · rw [if_pos h1] at h
    exact Or.inl h
  · rw [if_neg h1] at h
    by_cases h2 : shouldExport (relAt st e.2.1) (relAt st iface)
    · rw [if_pos h2] at h
      rcases mem_dinsert h with h | h
      · exact Or.inl h
      · exact Or.inr ⟨h1, h2, h⟩
    · rw [if_neg h2] at h
      exact Or.inl h

/-- Every entry of the `should_advertise` fold result either came from the
accumulator or from a best-route entry that passes split horizon and the
export policy. -/
theorem shouldAdv_fold_mem (st : EGPState) (iface : String) :
    ∀ (entries : List (String × (String × String)))
      (acc : List (String × String)) (x : String × String),
      x ∈ entries.foldl (fun acc pr =>
        if pr.2.1 = iface then acc
        else if shouldExport (relAt st pr.2.1) (relAt st iface) then
          dinsert acc pr.1 pr.2.2
        else acc) acc →
      x ∈ acc ∨ ∃ e ∈ entries, e.2.1 ≠ iface ∧
        shouldExport (relAt st e.2.1) (relAt st iface) = true ∧
        x = (e.1, e.2.2) := by
  intro entries
  induction entries with
  | nil => intro acc x h; exact Or.inl h
  | cons e rest ih =>
    intro acc x h
    rw [List.foldl_cons] at h
    rcases ih _ x h with hacc | ⟨e', he', hcond⟩
    · rcases shouldAdv_step_mem st iface acc e hacc with h | h
      · exact Or.inl h
      · exact Or.inr ⟨e, List.mem_cons_self _ _, h⟩
    · exact Or.inr ⟨e', List.mem_cons_of_mem _ he', hcond⟩

/-- C2: whenever `generateRoutingPacket` emits a payload, it consists of
the speaker line, the update lines and the withdrawal lines; every update
line concerns a best-route entry whose learned interface differs from the
emitting interface (split horizon) and that the export policy allows — in
particular a route learned from a peer or provider is only emitted when
the emitting interface's relation is customer — while a route learned
from a customer is exportable towards a neighbour of any relation. -/
theorem c2_export_policy (st : EGPState) (iface : String)
    (pl : List String) (st' : EGPState)
    (h : egpGenerate st iface = (some pl, st')) :
    (∀ rrel nrel, rrel = "customer" → shouldExport rrel nrel = true) ∧
    ∃ (ann : List (String × String)) (wd : List String),
      pl = ("speaker: " ++ st.ip) ::
        (ann.map (fun pr => fmtUpdate pr.1 pr.2) ++ wd.map fmtWithdrawal) ∧
      ∀ d p, (d, p) ∈ ann → ∃ ri, (d, (ri, p)) ∈ st.best ∧ ri ≠ iface ∧
        shouldExport (relAt st ri) (relAt st iface) = true ∧
        ((relAt st ri = "peer" ∨ relAt st ri = "provider") →
          relAt st iface = "customer") := by
  refine ⟨fun rrel nrel hr => by simp [shouldExport, hr], ?_⟩
  by_cases h1 : (dlookup st.neighbours iface).isNone
  · rw [egpGenerate, if_pos h1] at h
    cases (Prod.mk.injEq _ _ _ _ ▸ h).1
  · by_cases h2 : ((dlookup st.linkStates iface).getD "up") = "down"
    · rw [egpGenerate, if_neg h1, if_pos h2] at h
      cases (Prod.mk.injEq _ _ _ _ ▸ h).1
    · rw [egpGenerate, if_neg h1, if_neg h2] at h
      set st1 : EGPState :=
        { st with advertised :=
            if (dlookup st.advertised iface).isNone then
              dinsert st.advertised iface []
            else st.advertised } with hst1
      by_cases h3 : (egpToAnnounce st1 iface).isEmpty ∧
          (egpToWithdraw st1 iface).isEmpty
      · rw [if_pos h3] at h
        cases (Prod.mk.injEq _ _ _ _ ▸ h).1
      · rw [if_neg h3] at h
        have hpl : some (("speaker: " ++ st.ip) ::
            ((egpToAnnounce st1 iface).map
              (fun pr => fmtUpdate pr.1 pr.2) ++
             (egpToWithdraw st1 iface).map fmtWithdrawal)) = some pl :=
          (Prod.mk.injEq _ _ _ _ ▸ h).1
        refine ⟨egpToAnnounce st1 iface, egpToWithdraw st1 iface,
          (Option.some.injEq _ _ ▸ hpl).symm, ?_⟩
        intro d p hdp
        have hsa : (d, p) ∈ egpShouldAdvertise st1 iface :=
          List.mem_of_mem_filter hdp
        rcases shouldAdv_fold_mem st1 iface st1.best [] (d, p) hsa with
          habs | ⟨e, he, hni, hexp, hx⟩
        · cases habs
        · obtain ⟨hd, hp⟩ := Prod.mk.injEq _ _ _ _ ▸ hx
          refine ⟨e.2.1, ?_, hni, hexp, ?_⟩
          · rw [hd, hp]
            exact he
          · intro hrel
            have hnc : ¬ relAt st1 e.2.1 = "customer" := by
              rcases hrel with hr | hr <;>
                rw [show relAt st1 e.2.1 = relAt st e.2.1 from rfl, hr] <;>
                decide
            rw [shouldExport, if_neg hnc] at hexp
            exact of_decide_eq_true hexp

/-- C2 witness: the fixture daemon's provider-learned best route is
emitted towards the customer interface `i0`, and the emitted update line
satisfies split horizon and the export policy. -/
theorem c2_witness :
    (∀ rrel nrel, rrel = "customer" → shouldExport rrel nrel = true) ∧
    ∃ (ann : List (String × String)) (wd : List String),
      ["speaker: 10.0.0.1",
       "EGP-update prefix: 10.0.0.0/24 AS-path: 1 5 9"] =
        ("speaker: " ++ egpGenW.ip) ::
          (ann.map (fun pr => fmtUpdate pr.1 pr.2) ++
           wd.map fmtWithdrawal) ∧
      ∀ d p, (d, p) ∈ ann →
        ∃ ri, (d, (ri, p)) ∈ egpGenW.best ∧ ri ≠ "i0" ∧
          shouldExport (relAt egpGenW ri) (relAt egpGenW "i0") = true ∧
          ((relAt egpGenW ri = "peer" ∨ relAt egpGenW ri = "provider") →
            relAt egpGenW "i0" = "customer") :=
  c2_export_policy egpGenW "i0"
    ["speaker: 10.0.0.1", "EGP-update prefix: 10.0.0.0/24 AS-path: 1 5 9"]
    { egpGenW with advertised := [("i0", [("10.0.0.0/24", "1 5 9")])] }
    (by decide)

/-- C9 (amended): within one packet, a line whose prefix was already
processed earlier in the packet is silently ignored by EGP (update or
withdrawal alike); EXT raises a fatal error on a later update for an
already-processed prefix, and on a later withdrawal only while the prefix
is still among the speaker's received routes — a withdrawal whose prefix
is no longer there (e.g. a second withdrawal of the same prefix) is
silently skipped even if the prefix was processed earlier. -/
theorem c9_duplicate_handling (iface : String) :
    (∀ (st : EGPState) (processed : List String) (line : String)
       (rest : List String) (d : String),
       ¬ pyStartsWith line "speaker" = true →
       pyStartsWith line "EGP-update" = true →
       parseDest line = some d → d ∈ processed →
       egpProcessFold iface st processed (line :: rest) =
         egpProcessFold iface st processed rest) ∧
    (∀ (st : EGPState) (processed : List String) (line : String)
       (rest : List String) (d : String),
       ¬ pyStartsWith line "speaker" = true →
       ¬ pyStartsWith line "EGP-update" = true →
       pyStartsWith line "EGP-withdrawal" = true →
       parseDest line = some d → d ∈ processed →
       egpProcessFold iface st processed (line :: rest) =
         egpProcessFold iface st processed rest) ∧
    (∀ (ex : EXTState) (speaker : Option String) (processed : List String)
       (line : String) (rest : List String) (d : String),
       ¬ pyStartsWith line "speaker" = true →
       pyStartsWith line "EGP-update" = true →
       (splitWs line).get? 2 = some d → d ∈ processed →
       ∃ msg, extProcessFold iface ex speaker processed (line :: rest) =
         .error msg) ∧
    (∀ (ex : EXTState) (speaker : Option String) (processed : List String)
       (line : String) (rest : List String) (d rp k inner),
       ¬ pyStartsWith line "speaker" = true →
       ¬ pyStartsWith line "EGP-update" = true →
       pyStartsWith line "EGP-withdrawal" = true →
       (splitWs line).get? 2 = some d → d ∈ processed →
       ex.received.find? (fun pr => pr.1 = speaker) = some (k, inner) →
       dlookup inner d = some rp →
       ∃ msg, extProcessFold iface ex speaker processed (line :: rest) =
         .error msg) ∧
    (∀ (ex : EXTState) (speaker : Option String) (processed : List String)
       (line : String) (rest : List String) (d k inner),
       ¬ pyStartsWith line "speaker" = true →
       ¬ pyStartsWith line "EGP-update" = true →
       pyStartsWith line "EGP-withdrawal" = true →
       (splitWs line).get? 2 = some d →
       ex.received.find? (fun pr => pr.1 = speaker) = some (k, inner) →
       dlookup inner d = none →
       extProcessFold iface ex speaker processed (line :: rest) =
         extProcessFold iface ex speaker processed rest) := by
  refine ⟨?_, ?_, ?_, ?_, ?_⟩
  · intro st processed line rest d hs hu hd hmem
    have hstep : egpProcessLine iface st processed line =
        .ok (st, processed) := by
      rw [egpProcessLine, if_neg hs, if_pos hu, hd]
      cases parseAsPathEGP line with
      | none => rfl
      | some a =>
        simp only [egpUpdateLine]
        rw [if_pos hmem]
    rw [egpProcessFold, hstep]
    rfl
  · intro st processed line rest d hs hnu hw hd hmem
    have hstep : egpProcessLine iface st processed line =
        .ok (st, processed) := by
      rw [egpProcessLine, if_neg hs, if_neg hnu, if_pos hw, hd]
      simp only [egpWithdrawLine]
      rw [if_pos hmem]
    rw [egpProcessFold, hstep]
    rfl
  · intro ex speaker processed line rest d hs hu hd hmem
    refine ⟨"[EXT] multiple updates or withdrawals in the same packet " ++
      "for the same destination " ++ d, ?_⟩
    have hstep : extProcessLine iface ex speaker processed line =
        .error ("[EXT] multiple updates or withdrawals in the same packet "
          ++ "for the same destination " ++ d) := by
      rw [extProcessLine, if_neg hs, if_pos hu]
      rw [show tokenAt line 2 = Except.ok d by
        simp only [tokenAt, hd]]
      rw [exceptBind_ok, extUpdateLine, if_pos hmem]
    rw [extProcessFold, hstep]
    rfl
  · intro ex speaker processed line rest d rp k inner hs hnu hw hd hmem
      hfind hin
    refine ⟨"[EXT] multiple updates or withdrawals in the same " ++
      "packet for the same destination " ++ d, ?_⟩
    have hstep : extProcessLine iface ex speaker processed line =
        .error ("[EXT] multiple updates or withdrawals in the same " ++
          "packet for the same destination " ++ d) := by
      rw [extProcessLine, if_neg hs, if_neg hnu, if_pos hw]
      rw [show tokenAt line 2 = Except.ok d by
        simp only [tokenAt, hd]]
      rw [exceptBind_ok, hfind]
      simp only [extWithdrawLine]
      rw [hin]
      simp only [extWithdrawInner]
      rw [if_pos hmem]
    rw [extProcessFold, hstep]
    rfl
  · intro ex speaker processed line rest d k inner hs hnu hw hd hfind hnone
    have hstep : extProcessLine iface ex speaker processed line =
        .ok (ex, speaker, processed) := by
      rw [extProcessLine, if_neg hs, if_neg hnu, if_pos hw]
      rw [show tokenAt line 2 = Except.ok d by
        simp only [tokenAt, hd]]
      rw [exceptBind_ok, hfind]
      simp only [extWithdrawLine]
      rw [hnone]
      rfl
    rw [extProcessFold, hstep]
    rfl

/-- C9 witness: a duplicate update for an already-processed prefix is a
no-op for the EGP daemon and a fatal error for the EXT daemon. -/
theorem c9_witness :
    egpProcessFold "i0" egpStW ["10.0.0.0/24"]
        ["EGP-update prefix: 10.0.0.0/24 AS-path: 8"] =
      egpProcessFold "i0" egpStW ["10.0.0.0/24"] [] ∧
    ∃ msg, extProcessFold "i0" extC9 (some "10.0.0.1") ["10.0.0.0/24"]
        ["EGP-update prefix: 10.0.0.0/24 AS-path: 8"] = .error msg :=
  ⟨(c9_duplicate_handling "i0").1 egpStW ["10.0.0.0/24"]
      "EGP-update prefix: 10.0.0.0/24 AS-path: 8" [] "10.0.0.0/24"
      (by decide) (by decide) (by decide) (by decide),
   (c9_duplicate_handling "i0").2.2.1 extC9 (some "10.0.0.1")
      ["10.0.0.0/24"] "EGP-update prefix: 10.0.0.0/24 AS-path: 8" []
      "10.0.0.0/24" (by decide) (by decide) (by decide) (by decide)⟩

/-- C9 counterexample: the claim says EXT raises a fatal error on ANY
later update or withdrawal for a prefix already processed in the same
packet; on a packet with two withdrawals for the same prefix the first is
honoured (the received route disappears) and the second is silently
skipped — `processRoutingPacket` returns normally. -/
theorem c9_counterexample :
    (processRoutingPacketEXT extC9
      ["speaker: 10.0.0.1",
       "EGP-withdrawal prefix: 10.0.0.0/24",
       "EGP-withdrawal prefix: 10.0.0.0/24"] "i0").toOption.map
        (fun s => s.received) = some [(some "10.0.0.1", [])] := by decide

/-- C5 (amended): in every reachable EGP daemon state whose ASN is a
proper token, every stored best-route path contains the daemon's own ASN
exactly once, at position 0.  (No such guarantee holds for other ASNs:
the daemon's loop filter only checks its own ASN.) -/
theorem c5_best_own_asn_once (st : EGPState) (h : EGPReach st)
    (ht : asnToken st.asn) :
    ∀ d i p, dlookup st.best d = some (i, p) →
      (splitWs p).head? = some st.asn ∧ (splitWs p).count st.asn = 1 := by
  obtain ⟨_, hb⟩ := egpReach_inv st h ht
  intro d i p hlk
  obtain ⟨hhead, hnot⟩ := hb (d, (i, p)) (dlookup_mem hlk)
  refine ⟨hhead, ?_⟩
  cases hsp : splitWs p with
  | nil => rw [hsp] at hhead; cases hhead
  | cons t0 ts =>
    rw [hsp] at hhead hnot
    have ht0 : t0 = st.asn := Option.some.inj hhead
    rw [ht0, List.count_cons_self,
      List.count_eq_zero.mpr (by simpa using hnot)]

/-- C5 witness: the daemon state after processing one honest update is
reachable, and its only best path `"1 2 3"` carries the own ASN `1`
exactly once, in front. -/
theorem c5_witness :
    (splitWs "1 2 3").head? = some egpStC5.asn ∧
    (splitWs "1 2 3").count egpStC5.asn = 1 := by
  have hproc : processRoutingPacketEGP
      (initEGP "1" "10.0.0.1" [("i0", "10.0.0.2")] [("i0", "customer")])
      ["speaker: 10.0.0.2",
       "EGP-update prefix: 10.0.0.0/24 AS-path: 2 3"] "i0" =
      .ok egpStC5 := except_toOption_some (by decide)
  have hreach : EGPReach egpStC5 :=
    EGPReach.proc _ _ _ _
      (EGPReach.init "1" "10.0.0.1" [("i0", "10.0.0.2")]
        [("i0", "customer")]) hproc
  exact c5_best_own_asn_once egpStC5 hreach
    (show asnToken egpStC5.asn from ⟨by decide, by decide⟩) "10.0.0.0/24"
    "i0" "1 2 3" (by decide)

/-- C5 counterexample: the claim also asserts that no OTHER ASN appears
twice in a best path; processing the (loop-free as far as the daemon's
own filter is concerned) update `AS-path: 2 3 2` yields the reachable
best path `"1 2 3 2"` in which ASN `2` — different from the own ASN `1`
— appears twice. -/
theorem c5_counterexample :
    (processRoutingPacketEGP
      (initEGP "1" "10.0.0.1" [("i0", "10.0.0.2")] [("i0", "customer")])
      ["speaker: 10.0.0.2",
       "EGP-update prefix: 10.0.0.0/24 AS-path: 2 3 2"] "i0").toOption.map
        (fun s => (dlookup s.best "10.0.0.0/24", s.asn)) =
      some (some ("i0", "1 2 3 2"), "1") ∧
    (splitWs "1 2 3 2").count "2" = 2 ∧ ("2" : String) ≠ "1" := by decide

/-- C6: when `send` is called without an explicit outgoing interface and
the FIB lookup yields the (sorted) non-empty candidate list `ifaces`, the
chosen interface is the element of `ifaces` at index SHA-256 of the
concatenation of the router id, source port, destination port, source and
destination, taken modulo the candidate count; that index is always below
the count; a single candidate is always chosen; two packets agreeing on
source, destination and both ports are hashed to the same interface; and
the send proceeds exactly as an explicit send on the chosen interface. -/
theorem c6_ecmp_tiebreak (rst : RouterState) (p q : Packet)
    (ifaces : List String) (fuel : Nat) (inIface : Option String)
    (hfib : rst.fib.getNextHopsS p.dst = .ok ifaces)
    (hne : ifaces ≠ []) :
    getOutgoingIface rst.id ifaces p =
      ifaces.getD (sha256Nat (utf8Encode (rst.id ++ toString p.srcPort ++
        toString p.dstPort ++ p.src ++ p.dst)) % ifaces.length) "" ∧
    sha256Nat (utf8Encode (rst.id ++ toString p.srcPort ++
      toString p.dstPort ++ p.src ++ p.dst)) % ifaces.length <
      ifaces.length ∧
    (∀ c, ifaces = [c] → getOutgoingIface rst.id ifaces p = c) ∧
    (p.src = q.src → p.dst = q.dst → p.srcPort = q.srcPort →
      p.dstPort = q.dstPort →
      getOutgoingIface rst.id ifaces p = getOutgoingIface rst.id ifaces q) ∧
    routerSend (fuel + 1) rst (some p) none inIface =
      routerSend (fuel + 1) rst (some p)
        (some (getOutgoingIface rst.id ifaces p)) inIface := by
  have hemp : ifaces.isEmpty = false := by
    cases ifaces with
    | nil => exact absurd rfl hne
    | cons a t => rfl
  refine ⟨rfl, ?_, ?_, ?_, ?_⟩
  · exact Nat.mod_lt _ (List.length_pos.mpr hne)
  · intro c hc
    subst hc
    simp [getOutgoingIface, Nat.mod_one]
  · intro h1 h2 h3 h4
    simp only [getOutgoingIface, h1, h2, h3, h4]
  · simp only [routerSend]
    rw [hfib, exceptBind_ok, hemp]
    simp only [Bool.false_eq_true, if_false]

/-- C6 witness: on the fixture router, the FIB lookup for the packet's
destination returns the single candidate `["i0"]`, and the tie-break
selects it. -/
theorem c6_witness :
    (rstC6.fib.getNextHopsS pkC6.dst).toOption = some ["i0"] ∧
    getOutgoingIface rstC6.id ["i0"] pkC6 = "i0" := by
  refine ⟨by decide, ?_⟩
  exact (c6_ecmp_tiebreak rstC6 pkC6 pkC6 ["i0"] 0 none rfl
    (by decide)).2.2.1 "i0" rfl

/-- C8 (amended): on a `send` whose outgoing interface is up and not
LOOPBACK and whose packet's TTL is below 1, the packet is dropped (the
drop counter is incremented), an ICMP packet addressed back to the
packet's source is generated and recursively sent; the ICMP packet is
suppressed ONLY when the incoming interface is known AND lies in the
router's no-ICMP set — when NO incoming interface is known (`in_iface =
None`) the ICMP packet IS generated, because `None` is never a member of
the (string-valued) no-ICMP set. -/
theorem c8_ttl_expired_icmp (rst : RouterState) (p : Packet) (oi : String)
    (inIface : Option String) (fuel : Nat)
    (hoi : oi ≠ LOOPBACK)
    (hup : isInterfaceUp rst oi = .ok true)
    (httl : p.ttl < 1) :
    routerSend (fuel + 1) rst (some p) (some oi) inIface =
      (routerSend fuel
          (generateIcmpPacket { rst with cDrop := rst.cDrop + 1 } p
            inIface).1
          (generateIcmpPacket { rst with cDrop := rst.cDrop + 1 } p
            inIface).2
          none none).map
        (fun pr => (pr.1,
          (if p.ptype = PT_DATA
           then ["Router " ++ rst.id ++ ": Expired TTL, DROP packet "]
           else []) ++ pr.2)) ∧
    (generateIcmpPacket { rst with cDrop := rst.cDrop + 1 } p
      inIface).1.cDrop = rst.cDrop + 1 ∧
    (∀ i, inIface = some i → i ∈ rst.ifacesNoIcmp →
      (generateIcmpPacket { rst with cDrop := rst.cDrop + 1 } p
        inIface).2 = none) ∧
    ((∀ i, inIface = some i → i ∉ rst.ifacesNoIcmp) →
      (generateIcmpPacket { rst with cDrop := rst.cDrop + 1 } p
        inIface).2 =
        some { src := rst.id, dst := p.src, ptype := PT_ICMP,
               dstPort := p.srcPort, seq := p.seq }) := by
  refine ⟨?_, ?_, ?_, ?_⟩
  · simp only [routerSend]
    rw [if_neg hoi, hup, exceptBind_ok, if_neg (not_not_intro rfl),
      if_pos httl]
    cases hg : generateIcmpPacket { rst with cDrop := rst.cDrop + 1 } p
        inIface with
    | mk rst1 newp =>
      cases hr : routerSend fuel rst1 newp none none with
      | error e => rfl
      | ok pr =>
        obtain ⟨rst2, recLog⟩ := pr
        rfl
  · cases inIface with
    | none => rfl
    | some i =>
      simp only [generateIcmpPacket]
      split <;> rfl
  · intro i hi hmem
    subst hi
    simp [generateIcmpPacket, incrementOriginatedIcmps, hmem]
  · intro h
    cases inIface with
    | none => rfl
    | some i =>
      have hnot : i ∉ rst.ifacesNoIcmp := h i rfl
      simp [generateIcmpPacket, incrementOriginatedIcmps, hnot]

/-- C8 witness: on the fixture router (up link `i0`, no-ICMP set empty)
an expired packet with an unknown incoming interface still triggers the
ICMP reply addressed back to the packet's source. -/
theorem c8_witness :
    pkC8.ttl < 1 ∧
    (generateIcmpPacket { rstC8 with cDrop := rstC8.cDrop + 1 } pkC8
      none).2 =
      some { src := rstC8.id, dst := pkC8.src, ptype := PT_ICMP,
             dstPort := pkC8.srcPort, seq := pkC8.seq } :=
  ⟨by decide,
   (c8_ttl_expired_icmp rstC8 pkC8 "i0" none 1 (by decide) rfl
      (by decide)).2.2.2 (fun i hi => nomatch hi)⟩

/-- C8 counterexample: the claim says that with no known incoming
interface no ICMP packet is sent; on the fixture router the expired
packet (TTL 0, `in_iface = None`) yields an originated-ICMP count for
`None`, a generated ICMP packet, and a second drop from recursively
sending that ICMP packet (it finds no route in the empty FIB) — had no
ICMP packet been generated, the drop counter would end at 1 and the
originated-ICMP dict would still be counted, but no recursive send would
occur. -/
theorem c8_counterexample :
    pkC8.ttl < 1 ∧
    (generateIcmpPacket { rstC8 with cDrop := 1 } pkC8 none).2 =
      some { src := "A", dst := "10.0.0.5", ptype := PT_ICMP,
             dstPort := 11, seq := 0 } ∧
    (routerSend 2 rstC8 (some pkC8) (some "i0") none).toOption =
      some ({ rstC8 with
              cDrop := 2,
              originatedIcmpPackets := [(none, 1)] },
            ["Router A: Expired TTL, DROP packet "]) := by decide

end RoutingSim
